import Mathlib

/-!
Verification development for the openclaw-commander terminal dashboard.

The Go sources are shallowly embedded: strings are lists of characters
(`Str`), byte/rune lengths are character counts, machine integers are `Int`
(Go `int` arithmetic never overflows at the scales involved), and the
Bubble Tea update loop becomes a pure step function over an explicit model
record.  The SHA-256 content fingerprint is modelled as an injective
fingerprint (the content itself), and the external text-input widget is
modelled as its string value.

The file is organised as definitions first, theorems second.
-/

set_option maxHeartbeats 1600000
set_option maxRecDepth 4000

namespace Oclaw

/-- Program strings, embedded as lists of characters. -/
abbrev Str := List Char

/-- The ESC byte (0x1B). -/
def escChar : Char := Char.ofNat 27

/-- Go `strings.HasPrefix`: `startsWith pat s` decides whether `pat` is an
initial segment of `s`. -/
def startsWith : Str → Str → Bool
  | [], _ => true
  | _ :: _, [] => false
  | p :: ps, c :: cs => p == c && startsWith ps cs

/-- Go `strings.HasSuffix`: `endsWith pat s` decides whether `s` ends with `pat`. -/
def endsWith (pat s : Str) : Bool :=
  startsWith pat.reverse s.reverse

/-- Whitespace recognised by Go `strings.TrimSpace` (`unicode.IsSpace`),
restricted to the Latin-1 space characters. -/
def isSpaceGo (c : Char) : Bool :=
  c == ' ' || c == '\t' || c == '\n' || c == Char.ofNat 11 || c == Char.ofNat 12 ||
  c == '\r' || c == Char.ofNat 0x85 || c == Char.ofNat 0xA0

/-- Go `strings.TrimSpace`. -/
def trimSpace (s : Str) : Str :=
  ((s.dropWhile isSpaceGo).reverse.dropWhile isSpaceGo).reverse

/-- ASCII lower-casing of one character (model of Go `strings.ToLower` on the
ASCII subset actually exercised by the code). -/
def toLowerGo (c : Char) : Char :=
  if 'A' ≤ c ∧ c ≤ 'Z' then Char.ofNat (c.toNat + 32) else c

/-- ASCII upper-casing of one character (model of Go `strings.ToUpper`). -/
def toUpperGo (c : Char) : Char :=
  if 'a' ≤ c ∧ c ≤ 'z' then Char.ofNat (c.toNat - 32) else c

/-- Go `strings.Split(s, "\n")`: the list of newline-separated segments
(always non-empty). -/
def splitNl : Str → List Str
  | [] => [[]]
  | c :: rest =>
    if c = '\n' then [] :: splitNl rest
    else
      match splitNl rest with
      | [] => [[c]]
      | h :: t => (c :: h) :: t

/-- Go `strings.Join(ls, "\n")`. -/
def joinNl : List Str → Str
  | [] => []
  | [l] => l
  | l :: rest => l ++ '\n' :: joinNl rest

/-! ### internal/data/ansi.go

`StripANSI` applies the regular expression
`\x1b\[[0-9;]*[a-zA-Z]|\x1b\][^\x1b]*\x1b\\|\x1b[^[\]]` with
`ReplaceAllString(s, "")`.  The three alternatives are distinguished by the
character following ESC (`[`, `]`, anything else), so the leftmost-match
scan is deterministic and is embedded as a single left-to-right pass. -/

/-- A CSI parameter character (`[0-9;]`). -/
def isCsiParam (c : Char) : Bool :=
  ('0' ≤ c && c ≤ '9') || c == ';'

/-- An ASCII letter (`[a-zA-Z]`), the CSI final byte. -/
def isAsciiLetter (c : Char) : Bool :=
  ('a' ≤ c && c ≤ 'z') || ('A' ≤ c && c ≤ 'Z')

/-- Match the remainder of a CSI sequence after `ESC [`: `[0-9;]*[a-zA-Z]`.
Returns the input following the match. -/
def matchCsiTail : Str → Option Str
  | [] => none
  | c :: rest =>
    if isCsiParam c then matchCsiTail rest
    else if isAsciiLetter c then some rest
    else none

/-- Match the remainder of an OSC sequence after `ESC ]`: `[^\x1b]*\x1b\\`.
Returns the input following the match. -/
def matchOscTail : Str → Option Str
  | [] => none
  | c :: rest =>
    if c = escChar then
      match rest with
      | '\\' :: rest2 => some rest2
      | _ => none
    else matchOscTail rest

/-- Try to match one escape sequence of the `StripANSI` regular expression at
the head of the input; returns the input following the match. -/
def ansiMatch : Str → Option Str
  | c0 :: c1 :: rest =>
    if c0 = escChar then
      if c1 = '[' then matchCsiTail rest
      else if c1 = ']' then matchOscTail rest
      else some rest
    else none
  | _ => none

/-- `StripANSI`: delete every match of the escape-sequence regular
expression, scanning left to right. -/
def stripANSI (s : Str) : Str :=
  match s with
  | [] => []
  | c :: rest =>
    match h : ansiMatch (c :: rest) with
    | some rest' => stripANSI rest'
    | none => c :: stripANSI rest
termination_by s.length
decreasing_by
  · have hcsi : ∀ l r, matchCsiTail l = some r → r.length < l.length := by
      intro l
      induction l with
      | nil => intro r hr; simp [matchCsiTail] at hr
      | cons a as ih =>
        intro r hr
        simp only [matchCsiTail] at hr
        split at hr
        · exact Nat.lt_trans (ih r hr) (by simp)
        · split at hr
          · cases hr; simp
          · cases hr
    have hosc : ∀ l r, matchOscTail l = some r → r.length < l.length := by
      intro l
      induction l with
      | nil => intro r hr; simp [matchOscTail] at hr
      | cons a as ih =>
        intro r hr
        simp only [matchOscTail] at hr
        split at hr
        · split at hr
          · cases hr; simp; omega
          · cases hr
        · exact Nat.lt_trans (ih r hr) (by simp)
    have hm : ∀ l r, ansiMatch l = some r → r.length < l.length := by
      intro l r hr
      cases l with
      | nil => simp [ansiMatch] at hr
      | cons a0 as0 =>
        cases as0 with
        | nil => simp [ansiMatch] at hr
        | cons a1 as =>
          simp only [ansiMatch] at hr
          split at hr
          · split at hr
            · have := hcsi as r hr
              simp; omega
            · split at hr
              · have := hosc as r hr
                simp; omega
              · cases hr; simp only [List.length_cons]; omega
          · cases hr
    exact hm _ _ h
  · simp

/-- Every ESC in the input begins a complete escape-sequence match.  Inputs
satisfying this have all their escape sequences removed by `stripANSI`. -/
def escOK (s : Str) : Bool :=
  match s with
  | [] => true
  | c :: rest =>
    if c = escChar then
      match h : ansiMatch (c :: rest) with
      | some rest' => escOK rest'
      | none => false
    else escOK rest
termination_by s.length
decreasing_by
  · have hcsi : ∀ l r, matchCsiTail l = some r → r.length < l.length := by
      intro l
      induction l with
      | nil => intro r hr; simp [matchCsiTail] at hr
      | cons a as ih =>
        intro r hr
        simp only [matchCsiTail] at hr
        split at hr
        · exact Nat.lt_trans (ih r hr) (by simp)
        · split at hr
          · cases hr; simp
          · cases hr
    have hosc : ∀ l r, matchOscTail l = some r → r.length < l.length := by
      intro l
      induction l with
      | nil => intro r hr; simp [matchOscTail] at hr
      | cons a as ih =>
        intro r hr
        simp only [matchOscTail] at hr
        split at hr
        · split at hr
          · cases hr; simp; omega
          · cases hr
        · exact Nat.lt_trans (ih r hr) (by simp)
    have hm : ∀ l r, ansiMatch l = some r → r.length < l.length := by
      intro l r hr
      cases l with
      | nil => simp [ansiMatch] at hr
      | cons a0 as0 =>
        cases as0 with
        | nil => simp [ansiMatch] at hr
        | cons a1 as =>
          simp only [ansiMatch] at hr
          split at hr
          · split at hr
            · have := hcsi as r hr
              simp; omega
            · split at hr
              · have := hosc as r hr
                simp; omega
              · cases hr; simp only [List.length_cons]; omega
          · cases hr
    exact hm _ _ h
  · simp

/-- The input begins with a complete CSI sequence `ESC [ [0-9;]* letter`. -/
def csiAt : Str → Bool
  | c0 :: c1 :: rest => c0 == escChar && c1 == '[' && (matchCsiTail rest).isSome
  | _ => false

/-- The input contains a complete CSI sequence somewhere. -/
def containsCSI : Str → Bool
  | [] => false
  | c :: rest => csiAt (c :: rest) || containsCSI rest

/-! ### cleanLogContent (app.go) -/

/-- Go `strings.ReplaceAll(content, "\r\n", "\n")`. -/
def replaceCrlf : Str → Str
  | [] => []
  | '\r' :: '\n' :: rest => '\n' :: replaceCrlf rest
  | c :: rest => c :: replaceCrlf rest

/-- Go `strings.ReplaceAll(content, "\r", "\n")`. -/
def crToNl (s : Str) : Str :=
  s.map (fun c => if c = '\r' then '\n' else c)

/-- The newline-normalisation part of `cleanLogContent`. -/
def normalizeNewlines (s : Str) : Str :=
  crToNl (replaceCrlf s)

/-- The character remapping loop of `cleanLogContent`: box-drawing glyphs to
`-`/`|`/`+`, block elements to `#`, braille patterns to `.`. -/
def remapChar (c : Char) : Char :=
  if 0x2500 ≤ c.toNat ∧ c.toNat ≤ 0x257F then
    if c.toNat = 0x2500 ∨ c.toNat = 0x2501 ∨ c.toNat = 0x2504 ∨ c.toNat = 0x2505 ∨
       c.toNat = 0x2508 ∨ c.toNat = 0x2509 ∨ c.toNat = 0x254C ∨ c.toNat = 0x254D then '-'
    else if c.toNat = 0x2502 ∨ c.toNat = 0x2503 ∨ c.toNat = 0x2506 ∨ c.toNat = 0x2507 ∨
            c.toNat = 0x250A ∨ c.toNat = 0x250B ∨ c.toNat = 0x254E ∨ c.toNat = 0x254F then '|'
    else '+'
  else if 0x2580 ≤ c.toNat ∧ c.toNat ≤ 0x259F then '#'
  else if 0x2800 ≤ c.toNat ∧ c.toNat ≤ 0x28FF then '.'
  else c

/-- `cleanLogContent`: normalise line endings, strip ANSI escapes, remap
box-drawing/block/braille characters. -/
def cleanLogContent (content : Str) : Str :=
  (stripANSI (normalizeNewlines content)).map remapChar

/-! ### compressLogContent / isPlanningFiller (app.go) -/

/-- The apostrophe character. -/
def apos : Char := Char.ofNat 39

/-- A line that is exactly an `ASSISTANT` role banner
(`─── ASSISTANT (model) ───` or the `---` variant), tested on the trimmed line. -/
def isAssistantBanner (t : Str) : Bool :=
  (startsWith "─── ASSISTANT".data t || startsWith "--- ASSISTANT".data t) &&
  (endsWith "───".data t || endsWith "---".data t)

/-- A line that is exactly a `USER` role banner, tested on the trimmed line. -/
def isUserBanner (t : Str) : Bool :=
  (startsWith "─── USER".data t || startsWith "--- USER".data t) &&
  (endsWith "───".data t || endsWith "---".data t)

/-- The fixed transition-phrase table of `isPlanningFiller`. -/
def fillerTable : List Str :=
  [ "now let".data ++ apos :: "s".data,
    "now let me".data,
    "now i".data ++ apos :: "ll".data,
    "now i need to".data,
    "now update".data,
    "now we need".data,
    "now we".data ++ apos :: "ll".data,
    "let me now".data,
    "let".data ++ apos :: "s now".data,
    "next, i".data ++ apos :: "ll".data,
    "next, let".data ++ apos :: "s".data,
    "next i".data ++ apos :: "ll".data,
    "next let".data ++ apos :: "s".data,
    "i".data ++ apos :: "ll now".data,
    "i need to now".data ]

/-- `isPlanningFiller`: the lower-cased line starts with a transition phrase
and the trimmed line ends with a colon. -/
def isPlanningFiller (line : Str) : Bool :=
  fillerTable.any fun p =>
    startsWith p (line.map toLowerGo) && endsWith ":".data (trimSpace line)

/-- The line-filtering loop of `compressLogContent`, with the `prevBlank`
flag threaded explicitly. -/
def processLines : List Str → Bool → List Str
  | [], _ => []
  | line :: rest, prevBlank =>
    if isAssistantBanner (trimSpace line) then processLines rest prevBlank
    else if isUserBanner (trimSpace line) then processLines rest prevBlank
    else if isPlanningFiller (trimSpace line) then processLines rest prevBlank
    else if trimSpace line = [] then
      if prevBlank then processLines rest prevBlank
      else line :: processLines rest true
    else line :: processLines rest false

/-- `compressLogContent`: drop role banners and planning filler, collapse
blank-line runs, rejoin with newlines. -/
def compressLogContent (content : Str) : Str :=
  joinNl (processLines (splitNl content) false)

/-- A line list on which the `compressLogContent` loop is the identity: no
banner or filler lines, and no blank line follows a blank (nor starts the
list when the incoming `prevBlank` flag is set). -/
def goodLines : List Str → Bool → Bool
  | [], _ => true
  | line :: rest, prevBlank =>
    !isAssistantBanner (trimSpace line) && !isUserBanner (trimSpace line) &&
    !isPlanningFiller (trimSpace line) &&
    (if trimSpace line = [] then !prevBlank && goodLines rest true
     else goodLines rest false)

/-! ### internal/data — history messages, argument summaries, the transcript
normalizer (`ReadTranscriptMessages`) and `FormatHistory` -/

/-- A decoded JSON object of tool arguments: keys with stringified values in
document order (Go map iteration is modelled as document order). -/
abbrev ArgsMap := List (Str × Str)

/-- `HistoryMessage` (types.go). -/
structure HistoryMessage where
  role : Str := []
  model : Str := []
  text : Str := []
  toolName : Str := []
  toolArgs : Str := []
  toolError : Bool := false
  timestamp : Int := 0
  deriving Repr, DecidableEq

/-- A content block of a transcript record (`{type, text, name, arguments}`);
`arguments` is `none` when absent or unparseable. -/
structure ContentBlock where
  typ : Str := []
  text : Str := []
  name : Str := []
  arguments : Option ArgsMap := none
  deriving Repr, DecidableEq

/-- A transcript JSONL record after the nested/flat field resolution done at
the top of the `ReadTranscriptMessages` loop (`entry.Message.Role` falling
back to `entry.Role`, and so on). -/
structure TranscriptEntry where
  typ : Str := []
  role : Str := []
  content : List ContentBlock := []
  model : Str := []
  toolName : Str := []
  isError : Bool := false
  args : Option ArgsMap := none
  input : Option ArgsMap := none
  deriving Repr, DecidableEq

/-- Go `s[:cut] + "..."` truncation applied when `bound < len(s)`. -/
def truncGo (bound cut : Nat) (s : Str) : Str :=
  if bound < s.length then s.take cut ++ "...".data else s

/-- The priority key list of `extractToolArgsFromJSON` / `extractToolArgs`. -/
def argPriorityKeys : List Str :=
  ["command".data, "file_path".data, "path".data, "query".data, "url".data,
   "action".data, "tool".data]

/-- First value bound to key `k` in the decoded argument object. -/
def lookupArg (m : ArgsMap) (k : Str) : Option Str :=
  (m.find? (fun kv => kv.1 == k)).map (fun kv => kv.2)

/-- Go `strings.Join(parts, " ")`. -/
def joinSpace : List Str → Str
  | [] => []
  | [p] => p
  | p :: rest => p ++ ' ' :: joinSpace rest

/-- The shared summary logic of `extractToolArgsFromJSON`/`extractToolArgs`:
collect the (truncated) values of the priority keys, else the first value. -/
def summarizeArgs (m : ArgsMap) : Str :=
  match argPriorityKeys.filterMap (fun k => (lookupArg m k).map (truncGo 200 197)) with
  | [] =>
    match m with
    | [] => []
    | kv :: _ => truncGo 200 197 kv.2
  | parts => joinSpace parts

/-- `extractToolArgsFromJSON`: summary of a tool call argument object
(empty when the raw JSON is absent or unparseable). -/
def extractToolArgsFromJSON : Option ArgsMap → Str
  | none => []
  | some m => summarizeArgs m

/-- `extractToolArgs` on a raw record: prefer the `args` field, fall back to
`input`, else empty. -/
def extractToolArgsRaw (args input : Option ArgsMap) : Str :=
  match (match args with | some m => some m | none => input) with
  | none => []
  | some m => summarizeArgs m

/-- The `text`-typed, non-empty content blocks joined by newlines. -/
def joinTextBlocks (content : List ContentBlock) : Str :=
  joinNl ((content.filter (fun c => c.typ == "text".data && !c.text.isEmpty)).map
    (fun c => c.text))

/-- The `toolCall`/`tool_use` content blocks of a record, in order. -/
def toolCallBlocks (content : List ContentBlock) : List ContentBlock :=
  content.filter (fun c => c.typ == "toolCall".data || c.typ == "tool_use".data)

/-- The skip condition of the `ReadTranscriptMessages` loop:
`role == "" || (entry.Type != "" && entry.Type != "message")`. -/
def entrySkipped (e : TranscriptEntry) : Bool :=
  e.role == [] || (!(e.typ == []) && !(e.typ == "message".data))

/-- The `ReadTranscriptMessages` loop: assistant records push their tool-call
blocks on the pending queue; each tool-result pops the front of the queue
(FIFO), or falls back to its own `args`/`input` field when the queue is
empty. -/
def readTranscriptLoop : List TranscriptEntry → List (Str × Str) → List HistoryMessage
  | [], _ => []
  | e :: rest, pending =>
    if entrySkipped e then readTranscriptLoop rest pending
    else if e.role == "assistant".data then
      { role := e.role, model := e.model, text := joinTextBlocks e.content } ::
        readTranscriptLoop rest
          (pending ++ (toolCallBlocks e.content).map
            (fun c => (c.name, extractToolArgsFromJSON c.arguments)))
    else if e.role == "toolResult".data || e.role == "tool".data then
      match pending with
      | p :: ps =>
        { role := e.role, model := e.model,
          toolName := if e.toolName = [] then p.1 else e.toolName,
          toolError := e.isError, text := joinTextBlocks e.content,
          toolArgs := p.2 } :: readTranscriptLoop rest ps
      | [] =>
        { role := e.role, model := e.model, toolName := e.toolName,
          toolError := e.isError, text := joinTextBlocks e.content,
          toolArgs := extractToolArgsRaw e.args e.input } :: readTranscriptLoop rest []
    else
      { role := e.role, model := e.model, text := joinTextBlocks e.content } ::
        readTranscriptLoop rest pending

/-- `ReadTranscriptMessages` on an already-decoded record list. -/
def readTranscriptMessages (entries : List TranscriptEntry) : List HistoryMessage :=
  readTranscriptLoop entries []

/-- A record that neither is a tool-result nor emits a tool call: processing
it leaves the pending queue unchanged. -/
def neutralEntry (e : TranscriptEntry) : Bool :=
  entrySkipped e ||
  (!(e.role == "toolResult".data) && !(e.role == "tool".data) &&
   toolCallBlocks e.content == [])

/-- The argument summaries assigned to the tool-result messages of a
normalizer output, in order. -/
def resultArgs (msgs : List HistoryMessage) : List Str :=
  (msgs.filter (fun m => m.role == "toolResult".data || m.role == "tool".data)).map
    (fun m => m.toolArgs)

/-! ### FormatHistory and its helpers (types.go) -/

/-- `VerboseLevel` (`Summary = 0`, `Full = 1`, `Off = 2`). -/
inductive VerboseLevel where
  | summary
  | full
  | off
  deriving Repr, DecidableEq

/-- `VerboseLevel.Next`: `(v + 1) % 3`. -/
def VerboseLevel.next : VerboseLevel → VerboseLevel
  | .summary => .full
  | .full => .off
  | .off => .summary

/-- `toolEmoji`. -/
def toolEmoji (name : Str) : Str :=
  let lower := name.map toLowerGo
  if lower == "read".data || lower == "file_read".data then "📖".data
  else if lower == "write".data || lower == "file_write".data then "✍️".data
  else if lower == "edit".data || lower == "file_edit".data then "✏️".data
  else if lower == "exec".data || lower == "bash".data || lower == "shell".data then "🛠️".data
  else if lower == "web_search".data || lower == "search".data then "🔎".data
  else if lower == "web_fetch".data || lower == "fetch".data then "🌐".data
  else if lower == "browser".data then "🖥️".data
  else if lower == "message".data then "💬".data
  else if lower == "image".data then "🖼️".data
  else if lower == "tts".data then "🔊".data
  else if lower == "process".data then "⚙️".data
  else if lower == "nodes".data then "📱".data
  else if lower == "canvas".data then "🎨".data
  else "🔧".data

/-- Whitespace-splitting used by Go `strings.Fields`. -/
def splitWs : Str → List Str
  | [] => [[]]
  | c :: rest =>
    if isSpaceGo c then [] :: splitWs rest
    else
      match splitWs rest with
      | [] => [[c]]
      | h :: t => (c :: h) :: t

/-- Go `strings.Fields`. -/
def fieldsGo (s : Str) : List Str :=
  (splitWs s).filter (fun f => !f.isEmpty)

/-- Position of the first occurrence of `sub` in `s`, if any. -/
def indexOfAux (sub : Str) : Str → Option Nat
  | [] => if sub = [] then some 0 else none
  | c :: rest =>
    if startsWith sub (c :: rest) then some 0
    else (indexOfAux sub rest).map (fun n => n + 1)

/-- Go `strings.Index(s, sub)` (`-1` when absent). -/
def indexOf (s sub : Str) : Int :=
  match indexOfAux sub s with
  | some n => (n : Int)
  | none => -1

/-- Go `strings.Contains(s, sub)`. -/
def containsSub (s sub : Str) : Bool :=
  (indexOfAux sub s).isSome

/-- `extractArgValue` (the variadic key list of the Go signature is unused by
its body): return the first whitespace field when the trimmed summary looks
like a path, else the trimmed summary. -/
def extractArgValue (args : Str) : Str :=
  if trimSpace args = [] then []
  else if containsSub (trimSpace args) "/".data || containsSub (trimSpace args) "\\".data then
    match fieldsGo (trimSpace args) with
    | p :: _ => p
    | [] => trimSpace args
  else trimSpace args

/-- Go `strings.Split(s, "/")`. -/
def splitSlash : Str → List Str
  | [] => [[]]
  | c :: rest =>
    if c = '/' then [] :: splitSlash rest
    else
      match splitSlash rest with
      | [] => [[c]]
      | h :: t => (c :: h) :: t

/-- Go `strings.Join(ls, "/")`. -/
def joinSlash : List Str → Str
  | [] => []
  | [l] => l
  | l :: rest => l ++ '/' :: joinSlash rest

/-- The common path prefixes removed by `shortenPath`. -/
def shortenPathTable : List Str :=
  [ "/home/enum/Projects/".data,
    "/home/enum/.openclaw/workspace/".data,
    "/home/enum/".data ]

/-- `shortenPath`. -/
def shortenPath (path : Str) : Str :=
  match shortenPathTable.find? (fun p => startsWith p path) with
  | some p => path.drop p.length
  | none =>
    if 120 < path.length then
      let parts := splitSlash path
      if 3 < parts.length then
        "…/".data ++ joinSlash (parts.drop (parts.length - 3))
      else path
    else path

/-- `dimStyleGlobal`: wrap in `ESC[2m … ESC[0m`. -/
def dimStyleGlobal (s : Str) : Str :=
  escChar :: "[2m".data ++ s ++ escChar :: "[0m".data

/-- `formatToolSummary`. -/
def formatToolSummary (toolName args resultText : Str) (isError : Bool) : Str :=
  let lower := toolName.map toLowerGo
  if lower == "write".data || lower == "file_write".data then
    let path := extractArgValue args
    if path ≠ [] then
      let lineInfo :=
        if resultText ≠ [] then
          let idx := indexOf resultText "bytes".data
          if 0 < idx then
            " ".data ++ dimStyleGlobal (trimSpace (resultText.take (idx.toNat + 5)))
          else []
        else []
      "wrote ".data ++ shortenPath path ++ lineInfo
    else "write ".data ++ args
  else if lower == "read".data || lower == "file_read".data then
    let path := extractArgValue args
    if path ≠ [] then "read ".data ++ shortenPath path else "read ".data ++ args
  else if lower == "edit".data || lower == "file_edit".data then
    let path := extractArgValue args
    if path ≠ [] then "edit ".data ++ shortenPath path else "edit ".data ++ args
  else if lower == "exec".data || lower == "bash".data || lower == "shell".data then
    let cmd := truncGo 150 147 args
    if isError then "ran ".data ++ cmd ++ " (failed)".data
    else "ran ".data ++ cmd
  else if lower == "web_search".data || lower == "search".data then
    "searched ".data ++ args
  else if lower == "web_fetch".data || lower == "fetch".data then
    "fetched ".data ++ args
  else
    let summary := if args ≠ [] then toolName ++ " ".data ++ args else toolName
    truncGo 200 197 summary

/-- The pairing pass of `flushToolBatch`: collect `toolUse` argument
summaries in a queue and give each `toolResult`/`tool` the front of the
queue (else keep its own arguments). -/
def pairBatch : List HistoryMessage → List Str → List HistoryMessage
  | [], _ => []
  | m :: rest, useArgs =>
    if m.role == "toolUse".data then pairBatch rest (useArgs ++ [m.toolArgs])
    else if m.role == "toolResult".data || m.role == "tool".data then
      match useArgs with
      | a :: as => { m with toolArgs := a } :: pairBatch rest as
      | [] => m :: pairBatch rest []
    else pairBatch rest useArgs

/-- The indented error lines rendered under a failed tool result. -/
def renderErrLines : List Str → Str
  | [] => []
  | l :: rest => "   ".data ++ l ++ '\n' :: renderErrLines rest

/-- Concatenation of a list of strings. -/
def concatAll : List Str → Str
  | [] => []
  | l :: rest => l ++ concatAll rest

/-- The rendering pass of `flushToolBatch` for one paired result:
`" <status> <emoji> <summary>\n"` plus up to six indented error lines. -/
def renderToolResult (m : HistoryMessage) : Str :=
  let name := if m.toolName = [] then "tool".data else m.toolName
  let status := if m.toolError then "✗".data else "✓".data
  let summary := formatToolSummary name m.toolArgs m.text m.toolError
  let line := " ".data ++ status ++ " ".data ++ toolEmoji name ++ " ".data ++ summary
  line ++ "\n".data ++
    (if m.toolError && !m.text.isEmpty then
      let errLines := splitNl m.text
      let lim := if errLines.length < 6 then errLines.length else 6
      renderErrLines (errLines.take lim) ++
        (if 6 < errLines.length then "   …\n".data else [])
    else [])

/-- `flushToolBatch`. -/
def flushToolBatch (batch : List HistoryMessage) : Str :=
  concatAll ((pairBatch batch []).map renderToolResult)

/-- The role banner of a user/assistant block:
`─── ROLE (model) ───\n`. -/
def roleBanner (m : HistoryMessage) : Str :=
  "─── ".data ++ m.role.map toUpperGo ++ " ".data ++
    (if m.model ≠ [] then "(".data ++ m.model ++ ") ".data else []) ++ "───\n".data

/-- The default-branch block of `FormatHistory`: banner, optional text,
blank separator. -/
def bannerBlock (m : HistoryMessage) : Str :=
  roleBanner m ++ (if m.text ≠ [] then m.text ++ "\n".data else []) ++ "\n".data

/-- The `VerboseFull` block for a tool message. -/
def fullToolBlock (m : HistoryMessage) : Str :=
  let role := m.role.map toUpperGo ++
    (if m.toolName ≠ [] then " (".data ++ m.toolName ++ ")".data else [])
  "─── ".data ++ role ++ " ───\n".data ++
    (if m.text ≠ [] then m.text ++ "\n".data else []) ++ "\n".data

/-- The `FormatHistory` loop with the pending tool batch threaded
explicitly. -/
def formatHistoryLoop (verbose : VerboseLevel) :
    List HistoryMessage → List HistoryMessage → Str
  | [], batch => if verbose = .summary then flushToolBatch batch else []
  | m :: rest, batch =>
    if m.role == "toolResult".data || m.role == "toolUse".data || m.role == "tool".data then
      match verbose with
      | .off => formatHistoryLoop verbose rest batch
      | .summary => formatHistoryLoop verbose rest (batch ++ [m])
      | .full => flushToolBatch batch ++ fullToolBlock m ++ formatHistoryLoop verbose rest []
    else
      (if verbose = .summary then flushToolBatch batch else []) ++ bannerBlock m ++
        formatHistoryLoop verbose rest (if verbose = .summary then [] else batch)

/-- `FormatHistory`. -/
def formatHistory (msgs : List HistoryMessage) (verbose : VerboseLevel) : Str :=
  formatHistoryLoop verbose msgs []

/-- Role test for the tool message kinds of `FormatHistory`. -/
def isToolRole (role : Str) : Bool :=
  role == "toolResult".data || role == "toolUse".data || role == "tool".data

/-! ### Line wrapping: `maxLogScroll` counting versus the `renderLogPanel`
wrap-cache loop -/

/-- The inner `for len(line) > width` chunking loop of `renderLogPanel`
(plus the trailing remainder append). -/
def wrapChunksInt (width : Int) (line : Str) : List Str :=
  if h : 0 < width ∧ width < (line.length : Int) then
    line.take width.toNat :: wrapChunksInt width (line.drop width.toNat)
  else [line]
termination_by line.length
decreasing_by
  simp only [List.length_drop]
  omega

/-- The full wrap-cache construction of `renderLogPanel`: every raw line in
order, each contributing its chunks. -/
def renderWrapLines (width : Int) : List Str → List Str
  | [] => []
  | l :: rest => wrapChunksInt width l ++ renderWrapLines width rest

/-- The wrapped-line counting loop of `maxLogScroll`: ceiling division for
long lines, one line otherwise. -/
def totalWrappedInt (width : Int) : List Str → Int
  | [] => 0
  | l :: rest =>
    (if 0 < width ∧ width < (l.length : Int) then
      Int.tdiv ((l.length : Int) + width - 1) width
     else 1) + totalWrappedInt width rest

/-! ### The Bubble Tea model (app.go) -/

/-- `Session` (types.go), restricted to the fields the update logic reads. -/
structure Session where
  key : Str := []
  kind : Str := []
  channel : Str := []
  displayName : Str := []
  label : Str := []
  model : Str := []
  updatedAt : Int := 0
  ageMs : Int := 0
  sessionID : Str := []
  totalTokens : Int := 0
  abortedLastRun : Bool := false
  status : Str := []
  errorMessage : Str := []
  deriving Repr, DecidableEq

/-- `Process` (types.go). -/
structure Process where
  sessionName : Str := []
  status : Str := []
  runtime : Str := []
  command : Str := []
  deriving Repr, DecidableEq

/-- `ArchivedRun` (types.go). -/
structure ArchivedRun where
  sessionID : Str := []
  label : Str := []
  size : Int := 0
  modifiedAt : Int := 0
  path : Str := []
  deriving Repr, DecidableEq

/-- `GatewayHealth` (types.go). -/
structure GatewayHealth where
  ok : Bool := false
  durationMs : Int := 0
  ts : Int := 0
  deriving Repr, DecidableEq

/-- `SpawnResult`. -/
structure SpawnResult where
  sessionID : Str := []
  deriving Repr, DecidableEq

/-- `ModelOption`. -/
structure ModelOption where
  id : Str := []
  aliasName : Str := []
  deriving Repr, DecidableEq

def tabSessions : Int := 0
def tabProcesses : Int := 1
def tabHistory : Int := 2
def panelList : Int := 0
def panelLogs : Int := 1

def spawnFieldPrompt : Int := 0
def spawnFieldModel : Int := 1
def spawnFieldLabel : Int := 2
def spawnFieldCount : Int := 3

/-- The Bubble Tea `Model` struct (app.go).  Text inputs are modelled by
their string values; `logContentHash` stores the content fingerprint,
modelled as the fingerprinted string itself; `lastLogFetch` is a timestamp
in seconds. -/
structure UIModel where
  width : Int := 0
  height : Int := 0
  activeTab : Int := 0
  activePanel : Int := 0
  sessions : List Session := []
  processes : List Process := []
  archived : List ArchivedRun := []
  health : Option GatewayHealth := none
  sessionCursor : Int := 0
  processCursor : Int := 0
  historyCursor : Int := 0
  logContent : Str := []
  logFollow : Bool := false
  logScrollPos : Int := 0
  selectedLogID : Str := []
  selectedLogTab : Int := 0
  currentQuery : Str := []
  searching : Bool := false
  searchInput : Str := []
  filter : Str := []
  confirming : Bool := false
  confirmTarget : Str := []
  messaging : Bool := false
  msgInput : Str := []
  msgTarget : Str := []
  msgTargetName : Str := []
  sending : Bool := false
  lastError : Str := []
  spawning : Bool := false
  spawnField : Int := 0
  spawnPrompt : Str := []
  spawnModelCursor : Int := 0
  spawnModelOptions : List Str := []
  spawnLabel : Str := []
  spawnSpinning : Bool := false
  verboseLevel : VerboseLevel := .summary
  cachedMessages : List HistoryMessage := []
  cachedLogTab : Int := 0
  sourceFilter : Str := []
  lastLogContent : Str := []
  lastLogWidth : Int := 0
  wrappedLines : List Str := []
  logContentHash : Str := []
  lastLogFetch : Int := 0
  deriving Repr, DecidableEq

/-- `NewModel`: zero values except follow enabled and the default model
option. -/
def initModel : UIModel :=
  { logFollow := true, spawnModelOptions := ["(default)".data] }

/-- The content fingerprint (`sha256` hex digest), modelled as an injective
fingerprint: the content itself. -/
def fingerprint (s : Str) : Str := s

/-- Key bindings (keys.go). -/
def keysUp : List Str := ["up".data, "k".data]
def keysDown : List Str := ["down".data, "j".data]
def keysPageUp : List Str := ["pgup".data, "ctrl+u".data]
def keysPageDown : List Str := ["pgdown".data, "ctrl+d".data]
def keysLeft : List Str := ["left".data, "h".data]
def keysRight : List Str := ["right".data, "l".data]
def keysTab : List Str := ["tab".data]
def keysEnter : List Str := ["enter".data]
def keysKill : List Str := ["x".data]
def keysQuit : List Str := ["q".data, "ctrl+c".data]
def keysSearch : List Str := ["/".data]
def keysFollow : List Str := ["f".data]
def keysTab1 : List Str := ["1".data]
def keysTab2 : List Str := ["2".data]
def keysTab3 : List Str := ["3".data]
def keysConfirmY : List Str := ["y".data]
def keysConfirmN : List Str := ["n".data]
def keysEscape : List Str := ["esc".data]
def keysMessage : List Str := ["m".data]
def keysVerbose : List Str := ["v".data]
def keysSourceFilter : List Str := ["c".data]
def keysSpawn : List Str := ["s".data]

/-- `key.Matches`: the key event string is one of the binding keys. -/
def keyIs (k : Str) (binding : List Str) : Bool :=
  binding.any (fun b => b == k)

/-- Model of the external `textinput` widget update: a printable character
key appends to the value, everything else leaves it unchanged. -/
def textInputUpdate (value : Str) (k : Str) : Str :=
  match k with
  | [c] => value ++ [c]
  | _ => value

/-- The commands (`tea.Cmd`) the update loop can issue, as data. -/
inductive Cmd where
  | none
  | quit
  | blink
  | batch (cs : List Cmd)
  | fetchSessions
  | fetchProcesses
  | fetchArchived
  | fetchHealth
  | fetchLogs (id : Str)
  | fetchModels
  | sendMessage (sessionID text : Str)
  | spawnSession (mainSessionID prompt model label : Str)
  | killProcess (target : Str)
  | tickSessions
  | tickProcesses
  | tickLogs
  | tickHealth

/-- The events the update loop consumes (`tea.Msg`); tick events carry the
current time in seconds. -/
inductive Event where
  | winSize (width height : Int)
  | key (k : Str)
  | sessionsEv (sessions : List Session)
  | archivedEv (runs : List ArchivedRun)
  | processesEv (processes : List Process)
  | logsEv (content query : Str) (messages : List HistoryMessage) (logTab : Int) (now : Int)
  | healthEv (health : GatewayHealth)
  | agentReplyEv (reply : Str)
  | modelListEv (models : List ModelOption)
  | spawnSuccessEv (result : Option SpawnResult)
  | errEv (err : Str)
  | tickSessionsEv
  | tickProcessesEv
  | tickLogsEv (now : Int)
  | tickHealthEv

/-- `logViewHeight`. -/
def logViewHeight (m : UIModel) : Int :=
  max 1 (m.height - 4)

/-- `logWidth`. -/
def logWidth (m : UIModel) : Int :=
  let listWidth := Int.tdiv (m.width * 2) 5 - 2
  let w := m.width - listWidth - 6
  if w < 20 then 20 else w

/-- The visible height used by `maxLogScroll`: view height minus chrome,
minus one more when a query line is shown, floored at one. -/
def logViewH (m : UIModel) : Int :=
  let v0 := logViewHeight m - 3
  let v1 := if m.currentQuery ≠ [] then v0 - 1 else v0
  if v1 < 1 then 1 else v1

/-- `maxLogScroll`. -/
def maxLogScroll (m : UIModel) (width : Int) : Int :=
  if m.logContent = [] then 0
  else
    let total := totalWrappedInt width (splitNl m.logContent)
    let maxScroll := total - logViewH m
    if maxScroll < 0 then 0 else maxScroll

/-- `isAtBottom`. -/
def isAtBottom (m : UIModel) (width : Int) : Bool :=
  maxLogScroll m width - 1 ≤ m.logScrollPos

/-- `clampLogScroll`. -/
def clampLogScroll (m : UIModel) (width : Int) : UIModel :=
  if m.logContent = [] then { m with logScrollPos := 0 }
  else
    let maxScroll := maxLogScroll m width
    if maxScroll < m.logScrollPos then { m with logScrollPos := maxScroll } else m

def toLowerStr (s : Str) : Str := s.map toLowerGo

/-- `filteredSessions`. -/
def filteredSessions (m : UIModel) : List Session :=
  if m.filter = [] then m.sessions
  else
    m.sessions.filter fun s =>
      containsSub (toLowerStr s.key) (toLowerStr m.filter) ||
      containsSub (toLowerStr s.model) (toLowerStr m.filter) ||
      containsSub (toLowerStr s.kind) (toLowerStr m.filter) ||
      containsSub (toLowerStr s.displayName) (toLowerStr m.filter) ||
      containsSub (toLowerStr s.label) (toLowerStr m.filter) ||
      containsSub (toLowerStr s.channel) (toLowerStr m.filter)

/-- `filteredProcesses`. -/
def filteredProcesses (m : UIModel) : List Process :=
  if m.filter = [] then m.processes
  else
    m.processes.filter fun p =>
      containsSub (toLowerStr p.sessionName) (toLowerStr m.filter) ||
      containsSub (toLowerStr p.command) (toLowerStr m.filter)

/-- `filteredArchived`. -/
def filteredArchived (m : UIModel) : List ArchivedRun :=
  if m.filter = [] then m.archived
  else
    m.archived.filter fun a =>
      containsSub (toLowerStr a.label) (toLowerStr m.filter) ||
      containsSub (toLowerStr a.sessionID) (toLowerStr m.filter)

/-- `filteredListLen`. -/
def filteredListLen (m : UIModel) : Int :=
  if m.activeTab = tabSessions then (filteredSessions m).length
  else if m.activeTab = tabHistory then (filteredArchived m).length
  else (filteredProcesses m).length

/-- `currentCursor`. -/
def currentCursor (m : UIModel) : Int :=
  if m.activeTab = tabSessions then m.sessionCursor
  else if m.activeTab = tabHistory then m.historyCursor
  else m.processCursor

/-- `setCursor`. -/
def setCursor (m : UIModel) (v : Int) : UIModel :=
  if m.activeTab = tabSessions then { m with sessionCursor := v }
  else if m.activeTab = tabHistory then { m with historyCursor := v }
  else { m with processCursor := v }

/-- `moveCursor`. -/
def moveCursor (m : UIModel) (delta : Int) : UIModel :=
  let listLen := filteredListLen m
  if listLen = 0 then m
  else
    let cursor := currentCursor m + delta
    let cursor := if cursor < 0 then 0 else cursor
    let cursor := if listLen ≤ cursor then listLen - 1 else cursor
    setCursor m cursor

/-- `selectedItemID` (in-bounds indexing is modelled with a default). -/
def selectedItemID (m : UIModel) : Str :=
  if m.activeTab = tabSessions then
    (if m.sessionCursor < ((filteredSessions m).length : Int) then
      ((filteredSessions m).getD m.sessionCursor.toNat {}).key
     else [])
  else if m.activeTab = tabHistory then
    (if m.historyCursor < ((filteredArchived m).length : Int) then
      ((filteredArchived m).getD m.historyCursor.toNat {}).path
     else [])
  else
    (if m.processCursor < ((filteredProcesses m).length : Int) then
      ((filteredProcesses m).getD m.processCursor.toNat {}).sessionName
     else [])

/-- `sessionDisplayName`. -/
def sessionDisplayName (s : Session) : Str :=
  if s.label ≠ [] then s.label
  else if s.displayName ≠ [] then s.displayName
  else if s.kind ≠ [] ∧ s.channel ≠ [] then
    let hash := if 4 < s.sessionID.length then s.sessionID.drop (s.sessionID.length - 4)
                else s.sessionID
    s.kind ++ '#' :: hash
  else if 20 < s.key.length then s.key.take 20
  else s.key

/-- `filterMessagesBySource`: with no filter the list is returned as is;
with a filter the Go loop appends every message unchanged (best-effort
filter), so the result is again the input list. -/
def filterMessagesBySource (m : UIModel) (msgs : List HistoryMessage) : List HistoryMessage :=
  if m.sourceFilter = [] then msgs
  else msgs

/-- The main-session lookup of the spawn handler: the `SessionID` of the
first session whose kind is `main` or whose key ends in `:main`. -/
def findMainSessionID : List Session → Str
  | [] => []
  | s :: rest =>
    if s.kind == "main".data || endsWith ":main".data s.key then s.sessionID
    else findMainSessionID rest

/-- The model extraction of the spawn Enter handler: the selected option,
with the `"  (alias)"` display suffix stripped, or empty for the default. -/
def spawnSelectedModel (m : UIModel) : Str :=
  let selected := m.spawnModelOptions.getD m.spawnModelCursor.toNat []
  if selected ≠ "(default)".data then
    (if 0 < indexOf selected "  (".data then selected.take (indexOf selected "  (".data).toNat
     else selected)
  else []

/-- The log-panel Up branch of the normal-state key switch. -/
def scrollUpBranch (m : UIModel) : UIModel :=
  let m1 := { m with logScrollPos := max 0 (m.logScrollPos - 1) }
  let m2 := clampLogScroll m1 (logWidth m1)
  { m2 with logFollow := false }

/-- The log-panel Down branch of the normal-state key switch. -/
def scrollDownBranch (m : UIModel) : UIModel :=
  let m1 := { m with logScrollPos := m.logScrollPos + 1 }
  let m2 := clampLogScroll m1 (logWidth m1)
  if isAtBottom m2 (logWidth m2) then { m2 with logFollow := true } else m2

/-- The PageUp branch of the normal-state key switch. -/
def pageUpBranch (m : UIModel) : UIModel :=
  let ps0 := logViewHeight m - 3
  let pageSize := if ps0 < 1 then 10 else ps0
  let m1 := { m with logScrollPos := max 0 (m.logScrollPos - pageSize) }
  let m2 := clampLogScroll m1 (logWidth m1)
  { m2 with logFollow := false }

/-- The PageDown branch of the normal-state key switch. -/
def pageDownBranch (m : UIModel) : UIModel :=
  let ps0 := logViewHeight m - 3
  let pageSize := if ps0 < 1 then 10 else ps0
  let m1 := { m with logScrollPos := m.logScrollPos + pageSize }
  let m2 := clampLogScroll m1 (logWidth m1)
  if isAtBottom m2 (logWidth m2) then { m2 with logFollow := true } else m2

/-- The follow-toggle branch of the normal-state key switch. -/
def followToggleBranch (m : UIModel) : UIModel :=
  let m1 := { m with logFollow := !m.logFollow }
  if m1.logFollow then { m1 with logScrollPos := maxLogScroll m1 (logWidth m1) } else m1

/-- The cached-message re-render shared by the source-filter and verbosity
branches of the normal-state key switch. -/
def rerenderCachedBranch (m1 : UIModel) : UIModel :=
  if m1.cachedMessages ≠ [] ∧ m1.selectedLogTab ≠ tabProcesses then
    let m2 := { m1 with logContent := compressLogContent (formatHistory (filterMessagesBySource m1 m1.cachedMessages) m1.verboseLevel) }
    if m2.logFollow then { m2 with logScrollPos := maxLogScroll m2 (logWidth m2) }
    else clampLogScroll m2 (logWidth m2)
  else m1

/-- The key handler of the normal (no-mode) state. -/
def normalKey (m : UIModel) (k : Str) : UIModel × Cmd :=
  if keyIs k keysQuit then (m, Cmd.quit)
  else if keyIs k keysUp then
    if m.activePanel = panelList then (moveCursor m (-1), Cmd.none)
    else (scrollUpBranch m, Cmd.none)
  else if keyIs k keysDown then
    if m.activePanel = panelList then (moveCursor m 1, Cmd.none)
    else (scrollDownBranch m, Cmd.none)
  else if keyIs k keysPageUp then
    if m.activePanel = panelLogs then (pageUpBranch m, Cmd.none)
    else (m, Cmd.none)
  else if keyIs k keysPageDown then
    if m.activePanel = panelLogs then (pageDownBranch m, Cmd.none)
    else (m, Cmd.none)
  else if keyIs k keysTab then
    ({ m with activePanel := Int.tmod (m.activePanel + 1) 2 }, Cmd.none)
  else if keyIs k keysLeft then ({ m with activePanel := panelList }, Cmd.none)
  else if keyIs k keysRight then ({ m with activePanel := panelLogs }, Cmd.none)
  else if keyIs k keysEscape then
    if m.activePanel = panelLogs then ({ m with activePanel := panelList }, Cmd.none)
    else (m, Cmd.none)
  else if keyIs k keysTab1 then ({ m with activeTab := tabSessions }, Cmd.none)
  else if keyIs k keysTab2 then ({ m with activeTab := tabProcesses }, Cmd.none)
  else if keyIs k keysTab3 then ({ m with activeTab := tabHistory }, Cmd.none)
  else if keyIs k keysEnter then
    if selectedItemID m ≠ [] then
      ({ m with selectedLogID := selectedItemID m, selectedLogTab := m.activeTab,
                activePanel := panelLogs, logContent := [], logScrollPos := 0,
                logFollow := true, lastLogContent := [], lastLogWidth := 0,
                wrappedLines := [] },
       Cmd.batch [Cmd.fetchLogs (selectedItemID m), Cmd.tickLogs])
    else (m, Cmd.none)
  else if keyIs k keysKill then
    if selectedItemID m ≠ [] ∧ m.activeTab = tabProcesses then
      ({ m with confirming := true, confirmTarget := selectedItemID m }, Cmd.none)
    else (m, Cmd.none)
  else if keyIs k keysSearch then ({ m with searching := true }, Cmd.blink)
  else if keyIs k keysFollow then (followToggleBranch m, Cmd.none)
  else if keyIs k keysSourceFilter then
    (rerenderCachedBranch { m with sourceFilter :=
      if m.sourceFilter = [] then "signal".data
      else if m.sourceFilter = "signal".data then "matrix".data
      else if m.sourceFilter = "matrix".data then []
      else m.sourceFilter }, Cmd.none)
  else if keyIs k keysVerbose then
    (rerenderCachedBranch { m with verboseLevel := m.verboseLevel.next }, Cmd.none)
  else if keyIs k keysMessage then
    if m.activeTab = tabSessions then
      (if m.sessionCursor < ((filteredSessions m).length : Int) then
        ({ m with msgTarget := ((filteredSessions m).getD m.sessionCursor.toNat {}).sessionID,
                  msgTargetName :=
                    sessionDisplayName ((filteredSessions m).getD m.sessionCursor.toNat {}),
                  messaging := true }, Cmd.blink)
       else (m, Cmd.none))
    else (m, Cmd.none)
  else if keyIs k keysSpawn then
    ({ m with spawning := true, spawnField := spawnFieldPrompt, spawnPrompt := [],
              spawnModelCursor := 0, spawnLabel := [] },
     Cmd.batch [Cmd.blink, Cmd.fetchModels])
  else (m, Cmd.none)

/-- The searching-mode arm of `handleKey`. -/
def handleSearchingKey (m : UIModel) (k : Str) : UIModel × Cmd :=
  if keyIs k keysEscape then
    ({ m with searching := false, filter := [], searchInput := [] }, Cmd.none)
  else if keyIs k keysEnter then
    ({ m with searching := false, filter := m.searchInput }, Cmd.none)
  else
    ({ m with searchInput := textInputUpdate m.searchInput k,
              filter := textInputUpdate m.searchInput k }, Cmd.none)

/-- The messaging-mode arm of `handleKey`. -/
def handleMessagingKey (m : UIModel) (k : Str) : UIModel × Cmd :=
  if keyIs k keysEscape then
    ({ m with messaging := false, msgInput := [] }, Cmd.none)
  else if keyIs k keysEnter then
    (if m.msgInput = [] then ({ m with messaging := false }, Cmd.none)
     else ({ m with messaging := false, sending := true, msgInput := [] },
           Cmd.sendMessage m.msgTarget m.msgInput))
  else ({ m with msgInput := textInputUpdate m.msgInput k }, Cmd.none)

/-- The spawning-mode arm of `handleKey`. -/
def handleSpawningKey (m : UIModel) (k : Str) : UIModel × Cmd :=
  if keyIs k keysEscape then
    ({ m with spawning := false, spawnPrompt := [], spawnLabel := [],
              spawnModelCursor := 0 }, Cmd.none)
  else if keyIs k keysTab then
    ({ m with spawnField := Int.tmod (m.spawnField + 1) spawnFieldCount }, Cmd.blink)
  else if m.spawnField = spawnFieldModel ∧ (keyIs k keysUp ∨ keyIs k keysDown) then
    let delta : Int := if keyIs k keysUp then -1 else 1
    let c1 := m.spawnModelCursor + delta
    let c2 := if c1 < 0 then (m.spawnModelOptions.length : Int) - 1 else c1
    let c3 := if (m.spawnModelOptions.length : Int) ≤ c2 then 0 else c2
    ({ m with spawnModelCursor := c3 }, Cmd.none)
  else if keyIs k keysEnter then
    (if m.spawnPrompt = [] then
      ({ m with lastError := "prompt is required".data }, Cmd.none)
     else if findMainSessionID m.sessions = [] then
      ({ m with lastError := "no main session found".data }, Cmd.none)
     else
      ({ m with spawnSpinning := true, lastError := [] },
       Cmd.spawnSession (findMainSessionID m.sessions) m.spawnPrompt
         (spawnSelectedModel m) m.spawnLabel))
  else if m.spawnField = spawnFieldPrompt then
    ({ m with spawnPrompt := textInputUpdate m.spawnPrompt k }, Cmd.none)
  else if m.spawnField = spawnFieldLabel then
    ({ m with spawnLabel := textInputUpdate m.spawnLabel k }, Cmd.none)
  else (m, Cmd.none)

/-- The confirming-mode arm of `handleKey`. -/
def handleConfirmingKey (m : UIModel) (k : Str) : UIModel × Cmd :=
  if keyIs k keysConfirmY then
    ({ m with confirming := false, confirmTarget := [] },
     Cmd.killProcess m.confirmTarget)
  else if keyIs k keysConfirmN ∨ keyIs k keysEscape then
    ({ m with confirming := false, confirmTarget := [] }, Cmd.none)
  else (m, Cmd.none)

/-- `handleKey`: the mode cascade (searching, messaging, spawning,
confirming) followed by the normal-state key switch. -/
def handleKey (m : UIModel) (k : Str) : UIModel × Cmd :=
  if m.searching then handleSearchingKey m k
  else if m.messaging then handleMessagingKey m k
  else if m.spawning then handleSpawningKey m k
  else if m.confirming then handleConfirmingKey m k
  else normalKey m k

/-- The `logsMsg` branch of `Update`: cache the messages, detect changes by
fingerprint, and either no-op (same fingerprint), pin to bottom (follow
mode), or recompute the offset from the distance to the bottom. -/
def applyLogsMsg (m : UIModel) (content query : Str) (messages : List HistoryMessage)
    (logTab : Int) (now : Int) : UIModel :=
  let m0 := { m with cachedMessages := messages, cachedLogTab := logTab,
                     lastLogFetch := now }
  let filtered := filterMessagesBySource m0 messages
  let newContent :=
    if m0.selectedLogTab ≠ tabProcesses ∧ filtered.length ≠ messages.length then
      compressLogContent (formatHistory filtered m0.verboseLevel)
    else content
  if fingerprint newContent = m0.logContentHash then { m0 with currentQuery := query }
  else
    let m1 := { m0 with logContent := newContent,
                        logContentHash := fingerprint newContent,
                        currentQuery := query,
                        lastLogContent := [], lastLogWidth := 0, wrappedLines := [] }
    if m1.logFollow then
      (if m.logContent.length < newContent.length ∨ m.logContent.length = 0 then
        { m1 with logScrollPos := maxLogScroll m1 (logWidth m1) }
       else m1)
    else
      let oldMax := maxLogScroll m1 (logWidth m1)
      let distFromBottom := oldMax - m1.logScrollPos
      let newMax := maxLogScroll m1 (logWidth m1)
      let pos := newMax - distFromBottom
      { m1 with logScrollPos := if pos < 0 then 0 else pos }

/-- `Model.Update`: the complete event dispatch. -/
def update (m : UIModel) (e : Event) : UIModel × Cmd :=
  match e with
  | .winSize w h => ({ m with width := w, height := h }, Cmd.none)
  | .key k => handleKey m k
  | .sessionsEv ss => ({ m with sessions := ss, lastError := [] }, Cmd.fetchArchived)
  | .archivedEv runs => ({ m with archived := runs }, Cmd.none)
  | .processesEv ps => ({ m with processes := ps, lastError := [] }, Cmd.none)
  | .logsEv content query messages logTab now =>
      (applyLogsMsg m content query messages logTab now, Cmd.none)
  | .healthEv h => ({ m with health := some h, lastError := [] }, Cmd.none)
  | .agentReplyEv reply =>
      let m1 := { m with sending := false,
                         logContent := m.logContent ++ "\n─── SENT ───\n".data ++
                           cleanLogContent reply ++ "\n".data }
      let m2 := if m1.logFollow then
                  { m1 with logScrollPos := maxLogScroll m1 (logWidth m1) }
                else m1
      if m2.selectedLogID ≠ [] then (m2, Cmd.fetchLogs m2.selectedLogID)
      else (m2, Cmd.none)
  | .modelListEv models =>
      ({ m with spawnModelOptions := "(default)".data ::
                  models.map (fun mo =>
                    if mo.aliasName ≠ [] then mo.id ++ "  (".data ++ mo.aliasName ++ ")".data
                    else mo.id),
                spawnModelCursor := 0 }, Cmd.none)
  | .spawnSuccessEv result =>
      let m1 := { m with spawnSpinning := false, spawning := false, lastError := [] }
      (match result with
       | some r =>
          (if r.sessionID ≠ [] then
            ({ m1 with lastError := "✅ Spawned: ".data ++ r.sessionID }, Cmd.fetchSessions)
           else (m1, Cmd.fetchSessions))
       | none => (m1, Cmd.fetchSessions))
  | .errEv err =>
      ({ m with sending := false, spawnSpinning := false, lastError := err }, Cmd.none)
  | .tickSessionsEv => (m, Cmd.batch [Cmd.fetchSessions, Cmd.tickSessions])
  | .tickProcessesEv => (m, Cmd.batch [Cmd.fetchProcesses, Cmd.tickProcesses])
  | .tickLogsEv now =>
      if m.selectedLogID ≠ [] ∧ m.logFollow ∧ 2 ≤ now - m.lastLogFetch then
        (m, Cmd.batch [Cmd.fetchLogs m.selectedLogID, Cmd.tickLogs])
      else (m, Cmd.tickLogs)
  | .tickHealthEv => (m, Cmd.batch [Cmd.fetchHealth, Cmd.tickHealth])

/-- States reachable from the initial model by any event sequence. -/
inductive Reachable : UIModel → Prop where
  | init : Reachable initModel
  | step (m : UIModel) (e : Event) : Reachable m → Reachable (update m e).1

/-- The four mode flags of the interaction state machine. -/
def modeFlags (m : UIModel) : Bool × Bool × Bool × Bool :=
  (m.searching, m.messaging, m.spawning, m.confirming)

/-- Number of active mode flags. -/
def modeCount (m : UIModel) : Nat :=
  (if m.searching then 1 else 0) + (if m.messaging then 1 else 0) +
  (if m.spawning then 1 else 0) + (if m.confirming then 1 else 0)

/-- Modelled from the spec: the anchor formula for a non-follow update,
`scrollOffset' = max(0, newMax - (oldMax - scrollOffset))`. -/
def specAnchorOffset (oldMax newMax s : Int) : Int :=
  max 0 (newMax - (oldMax - s))

/-! ## Theorems -/

theorem splitNl_ne_nil (s : Str) : splitNl s ≠ [] := by
  induction s with
  | nil => simp [splitNl]
  | cons c rest ih =>
    simp only [splitNl]
    split
    · simp
    · cases h : splitNl rest <;> simp

theorem splitNl_cons_of_ne (c : Char) (rest : Str) (hc : c ≠ '\n') (h0 : Str) (t : List Str)
    (heq : splitNl rest = h0 :: t) : splitNl (c :: rest) = (c :: h0) :: t := by
  simp only [splitNl, if_neg hc, heq]

theorem no_newline_of_mem_splitNl (s : Str) : ∀ l ∈ splitNl s, '\n' ∉ l := by
  induction s with
  | nil =>
    intro l hl
    simp only [splitNl, List.mem_singleton] at hl
    subst hl; simp
  | cons c rest ih =>
    intro l hl
    by_cases hc : c = '\n'
    · simp only [splitNl, if_pos hc] at hl
      rcases List.mem_cons.mp hl with rfl | hl
      · simp
      · exact ih l hl
    · obtain ⟨h0, t, heq⟩ := List.exists_cons_of_ne_nil (splitNl_ne_nil rest)
      rw [splitNl_cons_of_ne c rest hc h0 t heq] at hl
      rcases List.mem_cons.mp hl with rfl | hl
      · intro hmem
        rcases List.mem_cons.mp hmem with h' | h'
        · exact hc h'.symm
        · exact ih h0 (heq ▸ List.mem_cons_self _ _) h'
      · exact ih l (heq ▸ List.mem_cons_of_mem _ hl)

theorem splitNl_no_nl (l : Str) (hl : '\n' ∉ l) : splitNl l = [l] := by
  induction l with
  | nil => simp [splitNl]
  | cons c cs ihc =>
    have hc : c ≠ '\n' := fun h => hl (h ▸ List.mem_cons_self _ _)
    have hcs : '\n' ∉ cs := fun h => hl (List.mem_cons_of_mem _ h)
    exact splitNl_cons_of_ne c cs hc cs [] (ihc hcs)

theorem splitNl_seg (l : Str) (s : Str) (hl : '\n' ∉ l) :
    splitNl (l ++ '\n' :: s) = l :: splitNl s := by
  induction l with
  | nil => simp [splitNl]
  | cons c cs ihc =>
    have hc : c ≠ '\n' := fun h => hl (h ▸ List.mem_cons_self _ _)
    have hcs : '\n' ∉ cs := fun h => hl (List.mem_cons_of_mem _ h)
    rw [List.cons_append]
    exact splitNl_cons_of_ne c _ hc cs (splitNl s) (ihc hcs)

theorem splitNl_joinNl : ∀ ls : List Str, ls ≠ [] → (∀ l ∈ ls, '\n' ∉ l) →
    splitNl (joinNl ls) = ls := by
  intro ls
  induction ls with
  | nil => intro h; exact absurd rfl h
  | cons l rest ih =>
    intro _ hnl
    cases rest with
    | nil => exact splitNl_no_nl l (hnl l (by simp))
    | cons l2 rest2 =>
      have hjoin : joinNl (l :: l2 :: rest2) = l ++ '\n' :: joinNl (l2 :: rest2) := rfl
      rw [hjoin, splitNl_seg l _ (hnl l (by simp)),
        ih (by simp) (fun x hx => hnl x (List.mem_cons_of_mem _ hx))]

theorem matchCsiTail_length : ∀ l r, matchCsiTail l = some r → r.length < l.length := by
  intro l
  induction l with
  | nil => intro r h; simp [matchCsiTail] at h
  | cons c rest ih =>
    intro r h
    simp only [matchCsiTail] at h
    split at h
    · exact Nat.lt_trans (ih r h) (by simp)
    · split at h
      · cases h; simp
      · cases h

theorem matchOscTail_length : ∀ l r, matchOscTail l = some r → r.length < l.length := by
  intro l
  induction l with
  | nil => intro r h; simp [matchOscTail] at h
  | cons c rest ih =>
    intro r h
    simp only [matchOscTail] at h
    split at h
    · split at h
      · cases h; simp; omega
      · cases h
    · exact Nat.lt_trans (ih r h) (by simp)

theorem ansiMatch_length : ∀ l r, ansiMatch l = some r → r.length < l.length := by
  intro l r h
  match l with
  | [] => simp [ansiMatch] at h
  | [c] => simp [ansiMatch] at h
  | c0 :: c1 :: rest =>
    simp only [ansiMatch] at h
    split at h
    · split at h
      · have := matchCsiTail_length rest r h
        simp; omega
      · split at h
        · have := matchOscTail_length rest r h
          simp; omega
        · cases h; simp only [List.length_cons]; omega
    · cases h

theorem ansiMatch_none_of_head_ne (c : Char) (rest : Str) (h : c ≠ escChar) :
    ansiMatch (c :: rest) = none := by
  cases rest with
  | nil => simp [ansiMatch]
  | cons c1 r => simp [ansiMatch, h]

theorem stripANSI_no_esc : ∀ n (l : Str), l.length ≤ n → escOK l = true →
    escChar ∉ stripANSI l := by
  intro n
  induction n with
  | zero =>
    intro l hl _
    have : l = [] := List.length_eq_zero.mp (Nat.le_zero.mp hl)
    subst this
    simp [stripANSI]
  | succ n ih =>
    intro l hl hok
    match l with
    | [] => simp [stripANSI]
    | c :: rest =>
      by_cases hc : c = escChar
      · rw [escOK] at hok
        rw [if_pos hc] at hok
        rw [stripANSI]
        cases hm : ansiMatch (c :: rest) with
        | none => rw [hm] at hok; simp at hok
        | some rest' =>
          rw [hm] at hok
          simp only
          have hlen := ansiMatch_length _ _ hm
          have hle : rest'.length ≤ n := by
            simp only [List.length_cons] at hl hlen
            omega
          exact ih rest' hle hok
      · rw [escOK, if_neg hc] at hok
        rw [stripANSI]
        rw [ansiMatch_none_of_head_ne c rest hc]
        simp only [List.mem_cons, not_or]
        exact ⟨fun h => hc h.symm, ih rest (by simp at hl; omega) hok⟩

theorem remapChar_esc (c : Char) : remapChar c = escChar → c = escChar := by
  intro h
  unfold remapChar at h
  split at h
  · split at h
    · exact absurd h (by decide)
    · split at h
      · exact absurd h (by decide)
      · exact absurd h (by decide)
  · split at h
    · exact absurd h (by decide)
    · split at h
      · exact absurd h (by decide)
      · exact h

theorem mem_processLines : ∀ (ls : List Str) (b : Bool) (l : Str),
    l ∈ processLines ls b → l ∈ ls := by
  intro ls
  induction ls with
  | nil => intro b l h; simp [processLines] at h
  | cons line rest ih =>
    intro b l h
    simp only [processLines] at h
    split at h
    · exact List.mem_cons_of_mem _ (ih b l h)
    · split at h
      · exact List.mem_cons_of_mem _ (ih b l h)
      · split at h
        · exact List.mem_cons_of_mem _ (ih b l h)
        · split at h
          · split at h
            · exact List.mem_cons_of_mem _ (ih b l h)
            · rcases List.mem_cons.mp h with rfl | h
              · exact List.mem_cons_self _ _
              · exact List.mem_cons_of_mem _ (ih true l h)
          · rcases List.mem_cons.mp h with rfl | h
            · exact List.mem_cons_self _ _
            · exact List.mem_cons_of_mem _ (ih false l h)

theorem isAssistantBanner_nil : isAssistantBanner [] = false := by decide

theorem isUserBanner_nil : isUserBanner [] = false := by decide

theorem isPlanningFiller_nil : isPlanningFiller [] = false := by decide

theorem goodLines_processLines : ∀ (ls : List Str) (b : Bool),
    goodLines (processLines ls b) b = true := by
  intro ls
  induction ls with
  | nil => intro b; simp [processLines, goodLines]
  | cons line rest ih =>
    intro b
    simp only [processLines]
    split
    · exact ih b
    · split
      · exact ih b
      · split
        · exact ih b
        · split
          · split
            · exact ih b
            · rename_i h1 h2 h3 h4 h5
              simp only [Bool.not_eq_true] at h5
              simp [goodLines, h4, h5, ih true,
                isAssistantBanner_nil, isUserBanner_nil, isPlanningFiller_nil]
          · rename_i h1 h2 h3 h4
            simp only [Bool.not_eq_true] at h1 h2 h3
            simp [goodLines, h1, h2, h3, h4, ih false]

theorem processLines_of_goodLines : ∀ (ls : List Str) (b : Bool),
    goodLines ls b = true → processLines ls b = ls := by
  intro ls
  induction ls with
  | nil => intro b _; rfl
  | cons line rest ih =>
    intro b hg
    simp only [goodLines] at hg
    by_cases ht : trimSpace line = []
    · rw [if_pos ht] at hg
      simp only [Bool.and_eq_true, Bool.not_eq_true'] at hg
      obtain ⟨⟨⟨h1, h2⟩, h3⟩, hb, hrest⟩ := hg
      simp [processLines, h1, h2, h3, ht, hb, ih true hrest,
        isAssistantBanner_nil, isUserBanner_nil, isPlanningFiller_nil]
    · rw [if_neg ht] at hg
      simp only [Bool.and_eq_true, Bool.not_eq_true'] at hg
      obtain ⟨⟨⟨h1, h2⟩, h3⟩, h4⟩ := hg
      simp [processLines, h1, h2, h3, ht, ih false h4]

/-- Claim C4: compression is idempotent — for every text `x`,
`compressLogContent (compressLogContent x) = compressLogContent x`: removing
role-banner lines, removing planning-filler lines and collapsing blank-line
runs reaches a fixed point after one application (proved for every string,
in particular every cleaned one). -/
theorem compressLogContent_fixpoint (x : Str) :
    compressLogContent (compressLogContent x) = compressLogContent x := by
  unfold compressLogContent
  by_cases hnil : processLines (splitNl x) false = []
  · rw [hnil]
    rfl
  · have hnonl : ∀ l ∈ processLines (splitNl x) false, '\n' ∉ l := fun l hl =>
      no_newline_of_mem_splitNl x l (mem_processLines _ false l hl)
    rw [splitNl_joinNl _ hnil hnonl,
      processLines_of_goodLines _ false (goodLines_processLines _ false)]

theorem clean_no_esc_of_escOK (s : Str)
    (h : escOK (normalizeNewlines s) = true) :
    escChar ∉ cleanLogContent s := by
  intro hmem
  unfold cleanLogContent at hmem
  obtain ⟨c, hc, hcesc⟩ := List.mem_map.mp hmem
  have hce := remapChar_esc c hcesc
  subst hce
  exact stripANSI_no_esc (normalizeNewlines s).length _ le_rfl h hc

/-- Claim C2 (amended): the Clean stage removes every ESC byte from inputs
whose escape sequences are all complete: if every ESC in the
newline-normalised input begins a full CSI, OSC, or two-character escape
sequence (as matched by the `StripANSI` regular expression), then the output
of `cleanLogContent` contains no ESC byte.  (As stated over every input that
merely contains some CSI/OSC sequence, the claim is false: a trailing stray
ESC survives, see the counterexample.) -/
theorem clean_removes_escapes (s : Str)
    (h : escOK (normalizeNewlines s) = true) :
    ¬ escChar ∈ cleanLogContent s :=
  clean_no_esc_of_escOK s h

/-- Claim C2, counterexample to the claim as stated: the input
`ESC [ 0 m ESC` contains a complete CSI sequence, yet the cleaned output
still contains an ESC byte (the trailing stray ESC is not matched by any
alternative of the `StripANSI` regular expression). -/
theorem clean_keeps_stray_escape :
    containsCSI (escChar :: '[' :: '0' :: 'm' :: [escChar]) = true ∧
    escChar ∈ cleanLogContent (escChar :: '[' :: '0' :: 'm' :: [escChar]) := by
  constructor
  · decide
  · have h1 : stripANSI (escChar :: '[' :: '0' :: 'm' :: [escChar]) = [escChar] := by
      simp [stripANSI, ansiMatch, matchCsiTail, isCsiParam, isAsciiLetter, escChar]
    have hn : normalizeNewlines (escChar :: '[' :: '0' :: 'm' :: [escChar]) =
        escChar :: '[' :: '0' :: 'm' :: [escChar] := by decide
    unfold cleanLogContent
    rw [hn, h1]
    decide

/-- Claim C2, witness: a concrete well-formed input on which the amended
theorem applies. -/
theorem clean_removes_escapes_witness :
    escOK (normalizeNewlines ('a' :: escChar :: '[' :: '0' :: 'm' :: ['b'])) = true ∧
    ¬ escChar ∈ cleanLogContent ('a' :: escChar :: '[' :: '0' :: 'm' :: ['b']) := by
  have hok : escOK (normalizeNewlines ('a' :: escChar :: '[' :: '0' :: 'm' :: ['b'])) = true := by
    have hn : normalizeNewlines ('a' :: escChar :: '[' :: '0' :: 'm' :: ['b']) =
        'a' :: escChar :: '[' :: '0' :: 'm' :: ['b'] := by decide
    rw [hn]
    simp [escOK, ansiMatch, matchCsiTail, matchOscTail, isCsiParam, isAsciiLetter, escChar]
  exact ⟨hok, clean_removes_escapes _ hok⟩

theorem formatHistoryLoop_off_filter (msgs : List HistoryMessage) :
    ∀ batch, formatHistoryLoop .off msgs batch =
      formatHistoryLoop .off (msgs.filter fun m => !isToolRole m.role) batch := by
  induction msgs with
  | nil => intro batch; rfl
  | cons m rest ih =>
    intro batch
    by_cases hm : isToolRole m.role = true
    · have hcond : (m.role == "toolResult".data || m.role == "toolUse".data ||
          m.role == "tool".data) = true := by
        simpa [isToolRole] using hm
      simp only [List.filter_cons, hm, Bool.not_true, if_neg]
      simp only [formatHistoryLoop, hcond, if_true]
      exact ih batch
    · have hcond : (m.role == "toolResult".data || m.role == "toolUse".data ||
          m.role == "tool".data) = false := by
        simpa [isToolRole] using hm
      simp only [List.filter_cons, Bool.not_eq_true] at hm ⊢
      simp only [hm, Bool.not_false, if_pos]
      simp only [formatHistoryLoop, hcond]
      simp only [Bool.false_eq_true, if_false]
      simp only [if_neg (by simp : ¬ (VerboseLevel.off = VerboseLevel.summary))]
      rw [ih batch]

/-- Claim C9: with verbosity `Off`, `FormatHistory` renders no tool-call or
tool-result message — its output equals the output on the message list with
all tool messages removed; and on the concrete list
`[user, tool-call, tool-result, assistant]` the output is exactly the
user and assistant banner blocks and texts, with no tool-derived lines. -/
theorem formatHistory_off_omits_tools :
    (∀ msgs : List HistoryMessage,
      formatHistory msgs .off =
        formatHistory (msgs.filter fun m => !isToolRole m.role) .off) ∧
    formatHistory
      [ { role := "user".data, text := "hello".data },
        { role := "toolUse".data, toolName := "exec".data, toolArgs := "ls".data },
        { role := "toolResult".data, toolName := "exec".data, text := "ok".data },
        { role := "assistant".data, model := "opus".data, text := "hi".data } ] .off =
      "─── USER ───\nhello\n\n─── ASSISTANT (opus) ───\nhi\n\n".data := by
  constructor
  · intro msgs
    exact formatHistoryLoop_off_filter msgs []
  · decide

theorem resultArgs_cons_drop (msg : HistoryMessage) (rest : List HistoryMessage)
    (h : (msg.role == "toolResult".data || msg.role == "tool".data) = false) :
    resultArgs (msg :: rest) = resultArgs rest := by
  simp [resultArgs, h]

theorem resultArgs_cons_keep (msg : HistoryMessage) (rest : List HistoryMessage)
    (h : (msg.role == "toolResult".data || msg.role == "tool".data) = true) :
    resultArgs (msg :: rest) = msg.toolArgs :: resultArgs rest := by
  simp [resultArgs, h]

theorem loop_skip (e : TranscriptEntry) (rest : List TranscriptEntry)
    (pending : List (Str × Str)) (h : entrySkipped e = true) :
    readTranscriptLoop (e :: rest) pending = readTranscriptLoop rest pending := by
  simp [readTranscriptLoop, h]

theorem loop_neutral (e : TranscriptEntry) (h : neutralEntry e = true)
    (rest : List TranscriptEntry) (pending : List (Str × Str)) :
    resultArgs (readTranscriptLoop (e :: rest) pending) =
      resultArgs (readTranscriptLoop rest pending) := by
  by_cases hs : entrySkipped e = true
  · rw [loop_skip e rest pending hs]
  · have hs' : entrySkipped e = false := by simpa using hs
    unfold neutralEntry at h
    rw [hs'] at h
    simp only [Bool.false_or, Bool.and_eq_true, Bool.not_eq_true'] at h
    obtain ⟨⟨hres, htool⟩, hblocks⟩ := h
    have hnres : (e.role == "toolResult".data || e.role == "tool".data) = false := by
      simp [hres, htool]
    by_cases ha : (e.role == "assistant".data) = true
    · simp only [readTranscriptLoop, hs', Bool.false_eq_true, if_false, ha, if_true]
      rw [resultArgs_cons_drop _ _ (by simpa using hnres)]
      simp only [beq_iff_eq] at hblocks
      rw [hblocks]
      simp
    · have ha' : (e.role == "assistant".data) = false := by simpa using ha
      simp only [readTranscriptLoop, hs', Bool.false_eq_true, if_false, ha', hnres]
      rw [resultArgs_cons_drop _ _ (by simpa using hnres)]

theorem loop_neutral_seg (u : List TranscriptEntry) (h : ∀ e ∈ u, neutralEntry e = true) :
    ∀ (rest : List TranscriptEntry) (pending : List (Str × Str)),
      resultArgs (readTranscriptLoop (u ++ rest) pending) =
        resultArgs (readTranscriptLoop rest pending) := by
  induction u with
  | nil => intro rest pending; rfl
  | cons e u' ih =>
    intro rest pending
    rw [List.cons_append, loop_neutral e (h e (List.mem_cons_self _ _)) (u' ++ rest) pending]
    exact ih (fun x hx => h x (List.mem_cons_of_mem _ hx)) rest pending

theorem loop_call (e : TranscriptEntry) (b : ContentBlock)
    (hrole : e.role = "assistant".data) (hskip : entrySkipped e = false)
    (hblocks : toolCallBlocks e.content = [b]) (rest : List TranscriptEntry)
    (pending : List (Str × Str)) :
    resultArgs (readTranscriptLoop (e :: rest) pending) =
      resultArgs (readTranscriptLoop rest
        (pending ++ [(b.name, extractToolArgsFromJSON b.arguments)])) := by
  have ha : (e.role == "assistant".data) = true := by simp [hrole]
  simp only [readTranscriptLoop, hskip, Bool.false_eq_true, if_false, ha, if_true, hblocks]
  rw [resultArgs_cons_drop _ _ (by simp [hrole])]
  simp

theorem loop_result_pop (e : TranscriptEntry) (hskip : entrySkipped e = false)
    (hrole : (e.role == "toolResult".data || e.role == "tool".data) = true)
    (rest : List TranscriptEntry) (p : Str × Str) (ps : List (Str × Str)) :
    resultArgs (readTranscriptLoop (e :: rest) (p :: ps)) =
      p.2 :: resultArgs (readTranscriptLoop rest ps) := by
  have ha : (e.role == "assistant".data) = false := by
    rcases Bool.or_eq_true_iff.mp hrole with h | h <;>
      simp only [beq_iff_eq] at h <;> simp [h]
  simp only [readTranscriptLoop, hskip, Bool.false_eq_true, if_false, ha, hrole, if_true]
  rw [resultArgs_cons_keep]
  simpa using hrole

theorem loop_result_fallback (e : TranscriptEntry) (hskip : entrySkipped e = false)
    (hrole : (e.role == "toolResult".data || e.role == "tool".data) = true)
    (rest : List TranscriptEntry) :
    resultArgs (readTranscriptLoop (e :: rest) []) =
      extractToolArgsRaw e.args e.input :: resultArgs (readTranscriptLoop rest []) := by
  have ha : (e.role == "assistant".data) = false := by
    rcases Bool.or_eq_true_iff.mp hrole with h | h <;>
      simp only [beq_iff_eq] at h <;> simp [h]
  simp only [readTranscriptLoop, hskip, Bool.false_eq_true, if_false, ha, hrole, if_true]
  rw [resultArgs_cons_keep]
  simpa using hrole

/-- Claim C3: FIFO tool-call pairing in the transcript normalizer.  First
conjunct: in a stream containing tool calls `c1` then `c2` and tool results
`r1` then `r2`, with arbitrary neutral (non-tool) records interleaved
anywhere, `r1` is assigned `c1`'s argument summary and `r2` gets `c2`'s.
Second conjunct: a tool result consumes exactly the oldest pending call.
Third conjunct: with no pending call the result's arguments come from its
own `args`/`input` field. -/
theorem tool_pairing_fifo :
    (∀ (u0 u1 u2 u3 u4 : List TranscriptEntry)
       (e1 e2 r1 r2 : TranscriptEntry) (b1 b2 : ContentBlock),
      (∀ e ∈ u0, neutralEntry e = true) → (∀ e ∈ u1, neutralEntry e = true) →
      (∀ e ∈ u2, neutralEntry e = true) → (∀ e ∈ u3, neutralEntry e = true) →
      (∀ e ∈ u4, neutralEntry e = true) →
      e1.role = "assistant".data → entrySkipped e1 = false →
      toolCallBlocks e1.content = [b1] →
      e2.role = "assistant".data → entrySkipped e2 = false →
      toolCallBlocks e2.content = [b2] →
      entrySkipped r1 = false →
      (r1.role == "toolResult".data || r1.role == "tool".data) = true →
      entrySkipped r2 = false →
      (r2.role == "toolResult".data || r2.role == "tool".data) = true →
      resultArgs (readTranscriptMessages
          (u0 ++ (e1 :: (u1 ++ (e2 :: (u2 ++ (r1 :: (u3 ++ (r2 :: u4))))))))) =
        [extractToolArgsFromJSON b1.arguments, extractToolArgsFromJSON b2.arguments]) ∧
    (∀ (e : TranscriptEntry) (rest : List TranscriptEntry) (p : Str × Str)
       (ps : List (Str × Str)),
      entrySkipped e = false →
      (e.role == "toolResult".data || e.role == "tool".data) = true →
      resultArgs (readTranscriptLoop (e :: rest) (p :: ps)) =
        p.2 :: resultArgs (readTranscriptLoop rest ps)) ∧
    (∀ (e : TranscriptEntry) (rest : List TranscriptEntry),
      entrySkipped e = false →
      (e.role == "toolResult".data || e.role == "tool".data) = true →
      resultArgs (readTranscriptLoop (e :: rest) []) =
        extractToolArgsRaw e.args e.input :: resultArgs (readTranscriptLoop rest [])) := by
  refine ⟨?_, fun e rest p ps hs hr => loop_result_pop e hs hr rest p ps,
          fun e rest hs hr => loop_result_fallback e hs hr rest⟩
  intro u0 u1 u2 u3 u4 e1 e2 r1 r2 b1 b2 h0 h1 h2 h3 h4 he1 hs1 hb1 he2 hs2 hb2
    hrs1 hrr1 hrs2 hrr2
  unfold readTranscriptMessages
  rw [loop_neutral_seg u0 h0, loop_call e1 b1 he1 hs1 hb1, List.nil_append,
    loop_neutral_seg u1 h1, loop_call e2 b2 he2 hs2 hb2, List.singleton_append,
    loop_neutral_seg u2 h2, loop_result_pop r1 hrs1 hrr1,
    loop_neutral_seg u3 h3, loop_result_pop r2 hrs2 hrr2]
  have h44 : resultArgs (readTranscriptLoop u4 []) = [] := by
    have h' := loop_neutral_seg u4 h4 [] []
    rw [List.append_nil] at h'
    rw [h']
    simp [readTranscriptLoop, resultArgs]
  rw [h44]

/-- Claim C3, witness: a concrete stream `[call exec ls; user; call exec pwd;
result; user; result]` in which the first result receives `ls` and the
second receives `pwd`. -/
theorem tool_pairing_fifo_witness :
    resultArgs (readTranscriptMessages
      ([] ++ (({ role := "assistant".data,
                 content := [{ typ := "toolCall".data, name := "exec".data,
                               arguments := some [("command".data, "ls".data)] }] } :
               TranscriptEntry) ::
        ([({ role := "user".data,
             content := [{ typ := "text".data, text := "what is here".data }] } :
           TranscriptEntry)] ++
          (({ role := "assistant".data,
              content := [{ typ := "toolCall".data, name := "exec".data,
                            arguments := some [("command".data, "pwd".data)] }] } :
            TranscriptEntry) ::
            ([] ++ (({ role := "toolResult".data, toolName := "exec".data } :
                     TranscriptEntry) ::
              ([({ role := "user".data,
                   content := [{ typ := "text".data, text := "thanks".data }] } :
                 TranscriptEntry)] ++
                (({ role := "toolResult".data, toolName := "exec".data } :
                  TranscriptEntry) :: ([] : List TranscriptEntry)))))))))) =
      ["ls".data, "pwd".data] := by
  have h := tool_pairing_fifo.1
    [] [{ role := "user".data,
          content := [{ typ := "text".data, text := "what is here".data }] }]
    [] [{ role := "user".data,
          content := [{ typ := "text".data, text := "thanks".data }] }] []
    { role := "assistant".data,
      content := [{ typ := "toolCall".data, name := "exec".data,
                    arguments := some [("command".data, "ls".data)] }] }
    { role := "assistant".data,
      content := [{ typ := "toolCall".data, name := "exec".data,
                    arguments := some [("command".data, "pwd".data)] }] }
    { role := "toolResult".data, toolName := "exec".data }
    { role := "toolResult".data, toolName := "exec".data }
    { typ := "toolCall".data, name := "exec".data,
      arguments := some [("command".data, "ls".data)] }
    { typ := "toolCall".data, name := "exec".data,
      arguments := some [("command".data, "pwd".data)] }
    (by decide) (by decide) (by decide) (by decide) (by decide)
    (by decide) (by decide) (by decide)
    (by decide) (by decide) (by decide)
    (by decide) (by decide) (by decide) (by decide)
  exact h.trans (by decide)

theorem ceil_div_step (L w : Nat) (hw : 1 ≤ w) (hL : w < L) :
    (L + w - 1) / w = (L - w + w - 1) / w + 1 := by
  have h1 : L + w - 1 = (L - w + w - 1) + w := by omega
  rw [h1, Nat.add_div_right _ hw]

theorem ceil_div_one (L w : Nat) (hw : 1 ≤ w) (h1 : 1 ≤ L) (h2 : L ≤ w) :
    (L + w - 1) / w = 1 := by
  apply Nat.div_eq_of_lt_le <;> omega

theorem wrapChunksInt_length (w : Nat) (hw : 1 ≤ w) :
    ∀ (n : Nat) (line : Str), line.length ≤ n →
      (wrapChunksInt (w : Int) line).length =
        if w < line.length then (line.length + w - 1) / w else 1 := by
  intro n
  induction n with
  | zero =>
    intro line hn
    have hline : line.length = 0 := by omega
    rw [wrapChunksInt]
    rw [dif_neg (by simp; omega)]
    simp [hline]
  | succ n ih =>
    intro line hn
    by_cases hlen : w < line.length
    · have hcond : 0 < (w : Int) ∧ (w : Int) < (line.length : Int) := by
        constructor <;> [exact_mod_cast hw; exact_mod_cast hlen]
      rw [wrapChunksInt, dif_pos hcond]
      have htn : (w : Int).toNat = w := Int.toNat_ofNat w
      have hdrop : (line.drop (w : Int).toNat).length = line.length - w := by
        rw [htn, List.length_drop]
      have hrec := ih (line.drop (w : Int).toNat) (by rw [hdrop]; omega)
      rw [List.length_cons, hrec, hdrop]
      by_cases h2 : w < line.length - w
      · rw [if_pos h2, if_pos hlen, ceil_div_step _ _ hw hlen]
      · rw [if_neg h2, if_pos hlen, ceil_div_step _ _ hw hlen,
          ceil_div_one _ _ hw (by omega) (by omega)]
    · rw [wrapChunksInt]
      rw [dif_neg (by simp; intro; omega)]
      simp [hlen]

theorem totalWrappedInt_line (w : Nat) (hw : 1 ≤ w) (l : Str) :
    (if 0 < (w : Int) ∧ (w : Int) < (l.length : Int) then
       Int.tdiv ((l.length : Int) + (w : Int) - 1) (w : Int)
     else 1) = ((wrapChunksInt (w : Int) l).length : Int) := by
  rw [wrapChunksInt_length w hw l.length l le_rfl]
  by_cases h : w < l.length
  · rw [if_pos h]
    rw [if_pos (by constructor <;> [exact_mod_cast hw; exact_mod_cast h])]
    have hc : ((l.length : Int) + (w : Int) - 1) = ((l.length + w - 1 : Nat) : Int) := by
      push_cast [Nat.cast_sub (by omega : 1 ≤ l.length + w)]
      ring
    rw [hc, ← Int.ofNat_tdiv]
  · rw [if_neg h]
    rw [if_neg (by intro hcon; exact h (by exact_mod_cast hcon.2))]
    simp

/-- Claim C10: the two line-wrapping computations agree — for every content
string and every viewport width at least one, the total wrapped-line count
computed by `maxLogScroll` by ceiling division equals the number of wrapped
lines produced by the `renderLogPanel` chunking loop, so the maximum scroll
offset is always consistent with the rendered wrapped-lines cache. -/
theorem wrap_counts_agree (content : Str) (width : Int) (hw : 1 ≤ width) :
    totalWrappedInt width (splitNl content) =
      ((renderWrapLines width (splitNl content)).length : Int) := by
  obtain ⟨w, rfl⟩ : ∃ w : Nat, width = (w : Int) :=
    ⟨width.toNat, (Int.toNat_of_nonneg (by omega)).symm⟩
  have hw' : 1 ≤ w := by exact_mod_cast hw
  generalize splitNl content = lines
  induction lines with
  | nil => rfl
  | cons l rest ih =>
    show (if 0 < (w : Int) ∧ (w : Int) < (l.length : Int) then
        Int.tdiv ((l.length : Int) + (w : Int) - 1) (w : Int)
      else 1) + totalWrappedInt (w : Int) rest =
      ((wrapChunksInt (w : Int) l ++ renderWrapLines (w : Int) rest).length : Int)
    rw [List.length_append, totalWrappedInt_line w hw' l, ih]
    push_cast
    ring

/-- Claim C10, witness: a line of 200 characters in a 40-column viewport
wraps into 5 lines under both computations. -/
theorem wrap_counts_agree_witness :
    (1 : Int) ≤ 40 ∧
    totalWrappedInt 40 (splitNl (List.replicate 200 'a')) =
      ((renderWrapLines 40 (splitNl (List.replicate 200 'a'))).length : Int) ∧
    totalWrappedInt 40 (splitNl (List.replicate 200 'a')) = 5 := by
  refine ⟨by decide, wrap_counts_agree _ _ (by decide), by decide⟩

theorem filterMessagesBySource_eq (m : UIModel) (msgs : List HistoryMessage) :
    filterMessagesBySource m msgs = msgs := by
  unfold filterMessagesBySource
  split <;> rfl

/-- Claim C6: fingerprint stability — when the incoming formatted content has
the same fingerprint as the stored one (byte-identical content under the
injective fingerprint model), the `logsMsg` update only refreshes the cached
messages, the cached tab, the fetch timestamp and the current query; in
particular the scroll offset, follow flag, stored content, content hash and
the whole wrapped-lines cache (`lastLogContent`, `lastLogWidth`,
`wrappedLines`) are left unchanged. -/
theorem fingerprint_stability (m : UIModel) (content query : Str)
    (msgs : List HistoryMessage) (tab now : Int)
    (h : fingerprint content = m.logContentHash) :
    (update m (Event.logsEv content query msgs tab now)).1 =
      { m with cachedMessages := msgs, cachedLogTab := tab, lastLogFetch := now,
               currentQuery := query } := by
  simp only [update, applyLogsMsg, filterMessagesBySource_eq, ne_eq, not_true_eq_false,
    and_false, if_false]
  rw [if_pos h]

/-- Claim C6, witness: a concrete unchanged poll is a no-op apart from the
cache/query refresh. -/
theorem fingerprint_stability_witness :
    fingerprint "x".data =
      ({ initModel with logContentHash := "x".data } : UIModel).logContentHash ∧
    (update { initModel with logContentHash := "x".data }
        (Event.logsEv "x".data "q".data [] 0 5)).1 =
      { ({ initModel with logContentHash := "x".data } : UIModel) with
          cachedMessages := [], cachedLogTab := 0, lastLogFetch := 5,
          currentQuery := "q".data } :=
  ⟨rfl, fingerprint_stability _ _ _ _ _ _ rfl⟩

theorem logViewH_pos (m : UIModel) : 1 ≤ logViewH m := by
  simp only [logViewH]
  split <;> split <;> omega

theorem maxLogScroll_as_max (m : UIModel) (w : Int) :
    maxLogScroll m w = max 0 (totalWrappedInt w (splitNl m.logContent) - logViewH m) := by
  unfold maxLogScroll
  by_cases hc : m.logContent = []
  · rw [if_pos hc, hc]
    have hv := logViewH_pos m
    have h1 : totalWrappedInt w (splitNl []) = 1 := by
      simp only [splitNl, totalWrappedInt, List.length_nil, Nat.cast_zero]
      rw [if_neg (by omega)]
      omega
    rw [h1]
    omega
  · rw [if_neg hc]
    simp only []
    omega

/-- Claim C5 (amended): the follow invariant with growth measured as the
code measures it — if `followEnabled` is true, the new content has a
different fingerprint, and the content grew in byte length (or the buffer
was previously empty), then the resulting scroll offset is the maximum
scroll offset `max(0, M - H)` where `M` is the new wrapped-line count and
`H` the visible height.  (As stated over growth in wrapped-line count the
claim fails, because the code compares byte lengths: see the
counterexample, where the wrapped-line count grows while the byte length
shrinks and the offset is not repinned.) -/
theorem follow_invariant (m : UIModel) (content query : Str)
    (msgs : List HistoryMessage) (tab now : Int)
    (hf : m.logFollow = true)
    (hh : fingerprint content ≠ m.logContentHash)
    (hg : m.logContent.length < content.length ∨ m.logContent.length = 0) :
    (update m (Event.logsEv content query msgs tab now)).1.logScrollPos =
      max 0 (totalWrappedInt (logWidth m) (splitNl content) -
        logViewH (update m (Event.logsEv content query msgs tab now)).1) := by
  simp only [update, applyLogsMsg, filterMessagesBySource_eq, ne_eq, not_true_eq_false,
    and_false, if_false]
  rw [if_neg hh, if_pos hf, if_pos hg]
  rw [maxLogScroll_as_max]
  rfl

/-- Claim C5, counterexample to the claim as stated: with follow enabled and
the content changing from one wrapped line (`"aaaa"`, 4 bytes) to two
wrapped lines (`"a\na"`, 3 bytes), the wrapped-line count grows but the
byte length shrinks, so the code leaves the scroll offset at 0 instead of
the maximum scroll offset 1. -/
theorem follow_counterexample :
    totalWrappedInt (logWidth { initModel with width := 100, height := 5, logContent := "aaaa".data, logContentHash := "aaaa".data }) (splitNl "aaaa".data) = 1 ∧
    totalWrappedInt (logWidth { initModel with width := 100, height := 5, logContent := "aaaa".data, logContentHash := "aaaa".data }) (splitNl "a\na".data) = 2 ∧
    ({ initModel with width := 100, height := 5, logContent := "aaaa".data, logContentHash := "aaaa".data } : UIModel).logFollow = true ∧
    (update { initModel with width := 100, height := 5, logContent := "aaaa".data, logContentHash := "aaaa".data } (Event.logsEv "a\na".data [] [] 1 0)).1.logScrollPos = 0 ∧
    max 0 (totalWrappedInt (logWidth { initModel with width := 100, height := 5, logContent := "aaaa".data, logContentHash := "aaaa".data }) (splitNl "a\na".data) - logViewH (update { initModel with width := 100, height := 5, logContent := "aaaa".data, logContentHash := "aaaa".data } (Event.logsEv "a\na".data [] [] 1 0)).1) = 1 := by
  decide

/-- Claim C5, witness for the amended theorem: a byte-growing update in
follow mode pins the offset to the bottom. -/
theorem follow_invariant_witness :
    ({ initModel with width := 100, height := 5, logContent := "a".data, logContentHash := "a".data } : UIModel).logFollow = true ∧
    (update { initModel with width := 100, height := 5, logContent := "a".data, logContentHash := "a".data } (Event.logsEv "a\nb\nc".data [] [] 1 0)).1.logScrollPos = max 0 (totalWrappedInt (logWidth ({ initModel with width := 100, height := 5, logContent := "a".data, logContentHash := "a".data } : UIModel)) (splitNl "a\nb\nc".data) - logViewH (update { initModel with width := 100, height := 5, logContent := "a".data, logContentHash := "a".data } (Event.logsEv "a\nb\nc".data [] [] 1 0)).1) :=
  ⟨rfl, follow_invariant _ _ _ _ _ _ rfl (by decide) (by decide)⟩

/-- Claim C1: the anchor invariant is broken in the code — evaluation at a
concrete failing input.  Before the update the old content has maximum
scroll `m = 0` and offset `s = 0` with follow disabled; the new content has
maximum scroll `m' = 7`; the spec formula demands
`scrollOffset' = max(0, m' - (m - s)) = 7`, but the update leaves the offset
at `0`: the code computes `oldMax` only after `m.logContent` has already
been swapped to the new content, so `oldMax = newMax` and the
distance-from-bottom correction always cancels to the old offset. -/
theorem anchor_distance_not_preserved :
    ({ initModel with width := 100, height := 20, logFollow := false, logContent := "a".data, logContentHash := "a".data } : UIModel).logFollow = false ∧
    maxLogScroll { initModel with width := 100, height := 20, logFollow := false, logContent := "a".data, logContentHash := "a".data } (logWidth { initModel with width := 100, height := 20, logFollow := false, logContent := "a".data, logContentHash := "a".data }) = 0 ∧
    ({ initModel with width := 100, height := 20, logFollow := false, logContent := "a".data, logContentHash := "a".data } : UIModel).logScrollPos = 0 ∧
    maxLogScroll (update { initModel with width := 100, height := 20, logFollow := false, logContent := "a".data, logContentHash := "a".data } (Event.logsEv (joinNl (List.replicate 20 "x".data)) [] [] 1 0)).1 (logWidth { initModel with width := 100, height := 20, logFollow := false, logContent := "a".data, logContentHash := "a".data }) = 7 ∧
    specAnchorOffset 0 7 0 = 7 ∧
    (update { initModel with width := 100, height := 20, logFollow := false, logContent := "a".data, logContentHash := "a".data } (Event.logsEv (joinNl (List.replicate 20 "x".data)) [] [] 1 0)).1.logScrollPos = 0 := by
  decide

/-- Claim C7 (amended): Enter in Spawning mode.  If the prompt is empty, or
no main/root session is found, the handler only sets the error message and
stays in Spawning with everything else unchanged.  Otherwise it sets
`spinning`, clears the error and issues the spawn command — but the mode
REMAINS Spawning (the claim's "returns the interaction mode to Normal" is
wrong for the Enter step, see the counterexample); Normal is restored only
when the spawn-success message arrives, which the last conjunct states. -/
theorem spawning_enter_behaviour (m : UIModel)
    (hsearch : m.searching = false) (hmsg : m.messaging = false)
    (hspawn : m.spawning = true) :
    (m.spawnPrompt = [] →
      (update m (Event.key "enter".data)).1 = { m with lastError := "prompt is required".data } ∧
      (update m (Event.key "enter".data)).2 = Cmd.none) ∧
    (m.spawnPrompt ≠ [] → findMainSessionID m.sessions = [] →
      (update m (Event.key "enter".data)).1 = { m with lastError := "no main session found".data } ∧
      (update m (Event.key "enter".data)).2 = Cmd.none) ∧
    (m.spawnPrompt ≠ [] → findMainSessionID m.sessions ≠ [] →
      (update m (Event.key "enter".data)).1 = { m with spawnSpinning := true, lastError := [] } ∧
      (update m (Event.key "enter".data)).1.spawning = true ∧
      (update m (Event.key "enter".data)).2 =
        Cmd.spawnSession (findMainSessionID m.sessions) m.spawnPrompt
          (spawnSelectedModel m) m.spawnLabel) ∧
    (∀ (m' : UIModel) (res : Option SpawnResult),
      (update m' (Event.spawnSuccessEv res)).1.spawning = false) := by
  have k1 : keyIs "enter".data keysEscape = false := by decide
  have k2 : keyIs "enter".data keysTab = false := by decide
  have k3 : keyIs "enter".data keysUp = false := by decide
  have k4 : keyIs "enter".data keysDown = false := by decide
  have k5 : keyIs "enter".data keysEnter = true := by decide
  have hred : update m (Event.key "enter".data) =
      (if m.spawnPrompt = [] then
        ({ m with lastError := "prompt is required".data }, Cmd.none)
       else if findMainSessionID m.sessions = [] then
        ({ m with lastError := "no main session found".data }, Cmd.none)
       else
        ({ m with spawnSpinning := true, lastError := [] },
         Cmd.spawnSession (findMainSessionID m.sessions) m.spawnPrompt
           (spawnSelectedModel m) m.spawnLabel)) := by
    show handleKey m "enter".data = _
    unfold handleKey handleSpawningKey
    simp [hsearch, hmsg, hspawn, k1, k2, k3, k4, k5]
  refine ⟨?_, ?_, ?_, ?_⟩
  · intro hp
    rw [hred, if_pos hp]
    exact ⟨rfl, rfl⟩
  · intro hp hmain
    rw [hred, if_neg hp, if_pos hmain]
    exact ⟨rfl, rfl⟩
  · intro hp hmain
    rw [hred, if_neg hp, if_neg hmain]
    exact ⟨rfl, hspawn, rfl⟩
  · intro m' res
    cases res with
    | none => rfl
    | some r =>
      show (if r.sessionID ≠ [] then _ else _ : UIModel × Cmd).1.spawning = false
      split <;> rfl

/-- Claim C7, counterexample to the claim as stated: in Spawning mode with a
non-empty prompt and a main session present, pressing Enter issues the
spawn command but the model is still in Spawning mode afterwards (the
claim asserts it returns to Normal). -/
theorem spawning_enter_stays_spawning :
    (update { initModel with spawning := true, spawnPrompt := "do the task".data, sessions := [{ key := "agent:main".data, kind := "main".data, sessionID := "sess-1".data }] } (Event.key "enter".data)).2 = Cmd.spawnSession "sess-1".data "do the task".data [] [] ∧
    (update { initModel with spawning := true, spawnPrompt := "do the task".data, sessions := [{ key := "agent:main".data, kind := "main".data, sessionID := "sess-1".data }] } (Event.key "enter".data)).1.spawning = true := by
  exact ⟨rfl, rfl⟩

/-- Claim C7, witness: the amended theorem applied at the concrete spawning
state. -/
theorem spawning_enter_behaviour_witness :
    (update { initModel with spawning := true, spawnPrompt := "do the task".data, sessions := [{ key := "agent:main".data, kind := "main".data, sessionID := "sess-1".data }] } (Event.key "enter".data)).1 = { ({ initModel with spawning := true, spawnPrompt := "do the task".data, sessions := [{ key := "agent:main".data, kind := "main".data, sessionID := "sess-1".data }] } : UIModel) with spawnSpinning := true, lastError := [] } ∧
    (update { initModel with spawning := true, spawnPrompt := "do the task".data, sessions := [{ key := "agent:main".data, kind := "main".data, sessionID := "sess-1".data }] } (Event.key "enter".data)).1.spawning = true := by
  have h := (spawning_enter_behaviour { initModel with spawning := true, spawnPrompt := "do the task".data, sessions := [{ key := "agent:main".data, kind := "main".data, sessionID := "sess-1".data }] } rfl rfl rfl).2.2.1 (by decide) (by decide)
  exact ⟨h.1, h.2.1⟩

@[simp] theorem setCursor_searching (m : UIModel) (v : Int) :
    (setCursor m v).searching = m.searching := by
  unfold setCursor; split_ifs <;> rfl

@[simp] theorem setCursor_messaging (m : UIModel) (v : Int) :
    (setCursor m v).messaging = m.messaging := by
  unfold setCursor; split_ifs <;> rfl

@[simp] theorem setCursor_spawning (m : UIModel) (v : Int) :
    (setCursor m v).spawning = m.spawning := by
  unfold setCursor; split_ifs <;> rfl

@[simp] theorem setCursor_confirming (m : UIModel) (v : Int) :
    (setCursor m v).confirming = m.confirming := by
  unfold setCursor; split_ifs <;> rfl

@[simp] theorem moveCursor_searching (m : UIModel) (d : Int) :
    (moveCursor m d).searching = m.searching := by
  simp only [moveCursor]; split_ifs <;> simp

@[simp] theorem moveCursor_messaging (m : UIModel) (d : Int) :
    (moveCursor m d).messaging = m.messaging := by
  simp only [moveCursor]; split_ifs <;> simp

@[simp] theorem moveCursor_spawning (m : UIModel) (d : Int) :
    (moveCursor m d).spawning = m.spawning := by
  simp only [moveCursor]; split_ifs <;> simp

@[simp] theorem moveCursor_confirming (m : UIModel) (d : Int) :
    (moveCursor m d).confirming = m.confirming := by
  simp only [moveCursor]; split_ifs <;> simp

@[simp] theorem clampLogScroll_searching (m : UIModel) (w : Int) :
    (clampLogScroll m w).searching = m.searching := by
  simp only [clampLogScroll]; split_ifs <;> rfl

@[simp] theorem clampLogScroll_messaging (m : UIModel) (w : Int) :
    (clampLogScroll m w).messaging = m.messaging := by
  simp only [clampLogScroll]; split_ifs <;> rfl

@[simp] theorem clampLogScroll_spawning (m : UIModel) (w : Int) :
    (clampLogScroll m w).spawning = m.spawning := by
  simp only [clampLogScroll]; split_ifs <;> rfl

@[simp] theorem clampLogScroll_confirming (m : UIModel) (w : Int) :
    (clampLogScroll m w).confirming = m.confirming := by
  simp only [clampLogScroll]; split_ifs <;> rfl

@[simp] theorem applyLogsMsg_searching (m : UIModel) (c q : Str)
    (msgs : List HistoryMessage) (tab now : Int) :
    (applyLogsMsg m c q msgs tab now).searching = m.searching := by
  simp only [applyLogsMsg]; split_ifs <;> rfl

@[simp] theorem applyLogsMsg_messaging (m : UIModel) (c q : Str)
    (msgs : List HistoryMessage) (tab now : Int) :
    (applyLogsMsg m c q msgs tab now).messaging = m.messaging := by
  simp only [applyLogsMsg]; split_ifs <;> rfl

@[simp] theorem applyLogsMsg_spawning (m : UIModel) (c q : Str)
    (msgs : List HistoryMessage) (tab now : Int) :
    (applyLogsMsg m c q msgs tab now).spawning = m.spawning := by
  simp only [applyLogsMsg]; split_ifs <;> rfl

@[simp] theorem applyLogsMsg_confirming (m : UIModel) (c q : Str)
    (msgs : List HistoryMessage) (tab now : Int) :
    (applyLogsMsg m c q msgs tab now).confirming = m.confirming := by
  simp only [applyLogsMsg]; split_ifs <;> rfl

@[simp] theorem scrollUpBranch_searching (m : UIModel) :
    (scrollUpBranch m).searching = m.searching := by
  simp [scrollUpBranch]

@[simp] theorem scrollUpBranch_messaging (m : UIModel) :
    (scrollUpBranch m).messaging = m.messaging := by
  simp [scrollUpBranch]

@[simp] theorem scrollUpBranch_spawning (m : UIModel) :
    (scrollUpBranch m).spawning = m.spawning := by
  simp [scrollUpBranch]

@[simp] theorem scrollUpBranch_confirming (m : UIModel) :
    (scrollUpBranch m).confirming = m.confirming := by
  simp [scrollUpBranch]

@[simp] theorem pageUpBranch_searching (m : UIModel) :
    (pageUpBranch m).searching = m.searching := by
  simp [pageUpBranch]

@[simp] theorem pageUpBranch_messaging (m : UIModel) :
    (pageUpBranch m).messaging = m.messaging := by
  simp [pageUpBranch]

@[simp] theorem pageUpBranch_spawning (m : UIModel) :
    (pageUpBranch m).spawning = m.spawning := by
  simp [pageUpBranch]

@[simp] theorem pageUpBranch_confirming (m : UIModel) :
    (pageUpBranch m).confirming = m.confirming := by
  simp [pageUpBranch]

@[simp] theorem scrollDownBranch_searching (m : UIModel) :
    (scrollDownBranch m).searching = m.searching := by
  simp only [scrollDownBranch]
  split_ifs <;> simp

@[simp] theorem scrollDownBranch_messaging (m : UIModel) :
    (scrollDownBranch m).messaging = m.messaging := by
  simp only [scrollDownBranch]
  split_ifs <;> simp

@[simp] theorem scrollDownBranch_spawning (m : UIModel) :
    (scrollDownBranch m).spawning = m.spawning := by
  simp only [scrollDownBranch]
  split_ifs <;> simp

@[simp] theorem scrollDownBranch_confirming (m : UIModel) :
    (scrollDownBranch m).confirming = m.confirming := by
  simp only [scrollDownBranch]
  split_ifs <;> simp

@[simp] theorem pageDownBranch_searching (m : UIModel) :
    (pageDownBranch m).searching = m.searching := by
  simp only [pageDownBranch]
  split_ifs <;> simp

@[simp] theorem pageDownBranch_messaging (m : UIModel) :
    (pageDownBranch m).messaging = m.messaging := by
  simp only [pageDownBranch]
  split_ifs <;> simp

@[simp] theorem pageDownBranch_spawning (m : UIModel) :
    (pageDownBranch m).spawning = m.spawning := by
  simp only [pageDownBranch]
  split_ifs <;> simp

@[simp] theorem pageDownBranch_confirming (m : UIModel) :
    (pageDownBranch m).confirming = m.confirming := by
  simp only [pageDownBranch]
  split_ifs <;> simp

@[simp] theorem followToggleBranch_searching (m : UIModel) :
    (followToggleBranch m).searching = m.searching := by
  simp only [followToggleBranch]
  split_ifs <;> simp

@[simp] theorem followToggleBranch_messaging (m : UIModel) :
    (followToggleBranch m).messaging = m.messaging := by
  simp only [followToggleBranch]
  split_ifs <;> simp

@[simp] theorem followToggleBranch_spawning (m : UIModel) :
    (followToggleBranch m).spawning = m.spawning := by
  simp only [followToggleBranch]
  split_ifs <;> simp

@[simp] theorem followToggleBranch_confirming (m : UIModel) :
    (followToggleBranch m).confirming = m.confirming := by
  simp only [followToggleBranch]
  split_ifs <;> simp

@[simp] theorem rerenderCachedBranch_searching (m : UIModel) :
    (rerenderCachedBranch m).searching = m.searching := by
  simp only [rerenderCachedBranch]
  split_ifs <;> simp

@[simp] theorem rerenderCachedBranch_messaging (m : UIModel) :
    (rerenderCachedBranch m).messaging = m.messaging := by
  simp only [rerenderCachedBranch]
  split_ifs <;> simp

@[simp] theorem rerenderCachedBranch_spawning (m : UIModel) :
    (rerenderCachedBranch m).spawning = m.spawning := by
  simp only [rerenderCachedBranch]
  split_ifs <;> simp

@[simp] theorem rerenderCachedBranch_confirming (m : UIModel) :
    (rerenderCachedBranch m).confirming = m.confirming := by
  simp only [rerenderCachedBranch]
  split_ifs <;> simp

theorem handleSearchingKey_count (m : UIModel) (k : Str) :
    modeCount (handleSearchingKey m k).1 ≤ modeCount m := by
  unfold handleSearchingKey
  split_ifs <;> simp [modeCount] <;> omega

theorem handleMessagingKey_count (m : UIModel) (k : Str) :
    modeCount (handleMessagingKey m k).1 ≤ modeCount m := by
  unfold handleMessagingKey
  split_ifs <;> simp [modeCount] <;> omega

theorem handleSpawningKey_count (m : UIModel) (k : Str) :
    modeCount (handleSpawningKey m k).1 ≤ modeCount m := by
  simp only [handleSpawningKey]
  split_ifs <;> simp [modeCount] <;> omega

theorem handleConfirmingKey_count (m : UIModel) (k : Str) :
    modeCount (handleConfirmingKey m k).1 ≤ modeCount m := by
  unfold handleConfirmingKey
  split_ifs <;> simp [modeCount] <;> omega

theorem normalKey_count (m : UIModel) (k : Str)
    (h1 : m.searching = false) (h2 : m.messaging = false)
    (h3 : m.spawning = false) (h4 : m.confirming = false) :
    modeCount (normalKey m k).1 <= 1 := by
  unfold normalKey
  by_cases c1 : keyIs k keysQuit = true
  · rw [if_pos c1]
    simp only [modeCount, h1, h2, h3, h4]
    decide
  rw [if_neg c1]
  by_cases c2 : keyIs k keysUp = true
  · rw [if_pos c2]
    by_cases p1 : m.activePanel = panelList
    · rw [if_pos p1]
      simp only [modeCount, h1, h2, h3, h4, moveCursor_searching, moveCursor_messaging, moveCursor_spawning, moveCursor_confirming]
      decide
    · rw [if_neg p1]
      simp only [modeCount, h1, h2, h3, h4, scrollUpBranch_searching, scrollUpBranch_messaging, scrollUpBranch_spawning, scrollUpBranch_confirming]
      decide
  rw [if_neg c2]
  by_cases c3 : keyIs k keysDown = true
  · rw [if_pos c3]
    by_cases p2 : m.activePanel = panelList
    · rw [if_pos p2]
      simp only [modeCount, h1, h2, h3, h4, moveCursor_searching, moveCursor_messaging, moveCursor_spawning, moveCursor_confirming]
      decide
    · rw [if_neg p2]
      simp only [modeCount, h1, h2, h3, h4, scrollDownBranch_searching, scrollDownBranch_messaging, scrollDownBranch_spawning, scrollDownBranch_confirming]
      decide
  rw [if_neg c3]
  by_cases c4 : keyIs k keysPageUp = true
  · rw [if_pos c4]
    by_cases p3 : m.activePanel = panelLogs
    · rw [if_pos p3]
      simp only [modeCount, h1, h2, h3, h4, pageUpBranch_searching, pageUpBranch_messaging, pageUpBranch_spawning, pageUpBranch_confirming]
      decide
    · rw [if_neg p3]
      simp only [modeCount, h1, h2, h3, h4]
      decide
  rw [if_neg c4]
  by_cases c5 : keyIs k keysPageDown = true
  · rw [if_pos c5]
    by_cases p4 : m.activePanel = panelLogs
    · rw [if_pos p4]
      simp only [modeCount, h1, h2, h3, h4, pageDownBranch_searching, pageDownBranch_messaging, pageDownBranch_spawning, pageDownBranch_confirming]
      decide
    · rw [if_neg p4]
      simp only [modeCount, h1, h2, h3, h4]
      decide
  rw [if_neg c5]
  by_cases c6 : keyIs k keysTab = true
  · rw [if_pos c6]
    simp only [modeCount, h1, h2, h3, h4]
    decide
  rw [if_neg c6]
  by_cases c7 : keyIs k keysLeft = true
  · rw [if_pos c7]
    simp only [modeCount, h1, h2, h3, h4]
    decide
  rw [if_neg c7]
  by_cases c8 : keyIs k keysRight = true
  · rw [if_pos c8]
    simp only [modeCount, h1, h2, h3, h4]
    decide
  rw [if_neg c8]
  by_cases c9 : keyIs k keysEscape = true
  · rw [if_pos c9]
    by_cases p5 : m.activePanel = panelLogs
    · rw [if_pos p5]
      simp only [modeCount, h1, h2, h3, h4]
      decide
    · rw [if_neg p5]
      simp only [modeCount, h1, h2, h3, h4]
      decide
  rw [if_neg c9]
  by_cases c10 : keyIs k keysTab1 = true
  · rw [if_pos c10]
    simp only [modeCount, h1, h2, h3, h4]
    decide
  rw [if_neg c10]
  by_cases c11 : keyIs k keysTab2 = true
  · rw [if_pos c11]
    simp only [modeCount, h1, h2, h3, h4]
    decide
  rw [if_neg c11]
  by_cases c12 : keyIs k keysTab3 = true
  · rw [if_pos c12]
    simp only [modeCount, h1, h2, h3, h4]
    decide
  rw [if_neg c12]
  by_cases c13 : keyIs k keysEnter = true
  · rw [if_pos c13]
    by_cases p6 : selectedItemID m ≠ []
    · rw [if_pos p6]
      simp only [modeCount, h1, h2, h3, h4]
      decide
    · rw [if_neg p6]
      simp only [modeCount, h1, h2, h3, h4]
      decide
  rw [if_neg c13]
  by_cases c14 : keyIs k keysKill = true
  · rw [if_pos c14]
    by_cases p7 : selectedItemID m ≠ [] ∧ m.activeTab = tabProcesses
    · rw [if_pos p7]
      simp only [modeCount, h1, h2, h3, h4]
      decide
    · rw [if_neg p7]
      simp only [modeCount, h1, h2, h3, h4]
      decide
  rw [if_neg c14]
  by_cases c15 : keyIs k keysSearch = true
  · rw [if_pos c15]
    simp only [modeCount, h1, h2, h3, h4]
    decide
  rw [if_neg c15]
  by_cases c16 : keyIs k keysFollow = true
  · rw [if_pos c16]
    simp only [modeCount, h1, h2, h3, h4, followToggleBranch_searching, followToggleBranch_messaging, followToggleBranch_spawning, followToggleBranch_confirming]
    decide
  rw [if_neg c16]
  by_cases c17 : keyIs k keysSourceFilter = true
  · rw [if_pos c17]
    simp only [modeCount, h1, h2, h3, h4, rerenderCachedBranch_searching, rerenderCachedBranch_messaging, rerenderCachedBranch_spawning, rerenderCachedBranch_confirming]
    decide
  rw [if_neg c17]
  by_cases c18 : keyIs k keysVerbose = true
  · rw [if_pos c18]
    simp only [modeCount, h1, h2, h3, h4, rerenderCachedBranch_searching, rerenderCachedBranch_messaging, rerenderCachedBranch_spawning, rerenderCachedBranch_confirming]
    decide
  rw [if_neg c18]
  by_cases c19 : keyIs k keysMessage = true
  · rw [if_pos c19]
    by_cases p8 : m.activeTab = tabSessions
    · rw [if_pos p8]
      by_cases p9 : m.sessionCursor < ((filteredSessions m).length : Int)
      · rw [if_pos p9]
        simp only [modeCount, h1, h2, h3, h4]
        decide
      · rw [if_neg p9]
        simp only [modeCount, h1, h2, h3, h4]
        decide
    · rw [if_neg p8]
      simp only [modeCount, h1, h2, h3, h4]
      decide
  rw [if_neg c19]
  by_cases c20 : keyIs k keysSpawn = true
  · rw [if_pos c20]
    simp only [modeCount, h1, h2, h3, h4]
    decide
  rw [if_neg c20]
  simp only [modeCount, h1, h2, h3, h4]
  decide

theorem update_preserves_modeCount (m : UIModel) (e : Event)
    (hm : modeCount m ≤ 1) : modeCount (update m e).1 ≤ 1 := by
  cases e with
  | winSize w h => simpa [update, modeCount] using hm
  | key k =>
      simp only [update]
      unfold handleKey
      by_cases f1 : m.searching = true
      · rw [if_pos f1]; exact le_trans (handleSearchingKey_count m k) hm
      rw [if_neg f1]
      by_cases f2 : m.messaging = true
      · rw [if_pos f2]; exact le_trans (handleMessagingKey_count m k) hm
      rw [if_neg f2]
      by_cases f3 : m.spawning = true
      · rw [if_pos f3]; exact le_trans (handleSpawningKey_count m k) hm
      rw [if_neg f3]
      by_cases f4 : m.confirming = true
      · rw [if_pos f4]; exact le_trans (handleConfirmingKey_count m k) hm
      rw [if_neg f4]
      exact normalKey_count m k (by simpa using f1) (by simpa using f2)
        (by simpa using f3) (by simpa using f4)
  | sessionsEv ss => simpa [update, modeCount] using hm
  | archivedEv runs => simpa [update, modeCount] using hm
  | processesEv ps => simpa [update, modeCount] using hm
  | logsEv content query messages logTab now => simpa [update, modeCount] using hm
  | healthEv hh => simpa [update, modeCount] using hm
  | agentReplyEv reply =>
      simp only [update]
      split_ifs <;> simp [modeCount] at hm ⊢ <;> omega
  | modelListEv models => simpa [update, modeCount] using hm
  | spawnSuccessEv result =>
      cases result with
      | none => simp [update, modeCount] at hm ⊢ <;> omega
      | some r =>
          simp only [update]
          split_ifs <;> simp [modeCount] at hm ⊢ <;> omega
  | errEv err => simpa [update, modeCount] using hm
  | tickSessionsEv => exact hm
  | tickProcessesEv => exact hm
  | tickLogsEv now =>
      simp only [update]
      split_ifs <;> exact hm
  | tickHealthEv => exact hm

theorem update_mode_rise (m : UIModel) (e : Event)
    (h : (m.searching = false ∧ (update m e).1.searching = true) ∨
         (m.messaging = false ∧ (update m e).1.messaging = true) ∨
         (m.spawning = false ∧ (update m e).1.spawning = true) ∨
         (m.confirming = false ∧ (update m e).1.confirming = true)) :
    m.searching = false ∧ m.messaging = false ∧ m.spawning = false ∧
      m.confirming = false := by
  cases e with
  | key k =>
      simp only [update] at h
      unfold handleKey at h
      by_cases f1 : m.searching = true
      · rw [if_pos f1] at h
        exfalso
        simp only [handleSearchingKey] at h
        rcases h with ⟨a, b⟩ | ⟨a, b⟩ | ⟨a, b⟩ | ⟨a, b⟩ <;>
          split_ifs at b <;> simp_all
      rw [if_neg f1] at h
      by_cases f2 : m.messaging = true
      · rw [if_pos f2] at h
        exfalso
        simp only [handleMessagingKey] at h
        rcases h with ⟨a, b⟩ | ⟨a, b⟩ | ⟨a, b⟩ | ⟨a, b⟩ <;>
          split_ifs at b <;> simp_all
      rw [if_neg f2] at h
      by_cases f3 : m.spawning = true
      · rw [if_pos f3] at h
        exfalso
        simp only [handleSpawningKey] at h
        rcases h with ⟨a, b⟩ | ⟨a, b⟩ | ⟨a, b⟩ | ⟨a, b⟩ <;>
          split_ifs at b <;> simp_all
      rw [if_neg f3] at h
      by_cases f4 : m.confirming = true
      · rw [if_pos f4] at h
        exfalso
        simp only [handleConfirmingKey] at h
        rcases h with ⟨a, b⟩ | ⟨a, b⟩ | ⟨a, b⟩ | ⟨a, b⟩ <;>
          split_ifs at b <;> simp_all
      rw [if_neg f4] at h
      exact ⟨by simpa using f1, by simpa using f2, by simpa using f3,
        by simpa using f4⟩
  | winSize w hh =>
      rcases h with ⟨a, b⟩ | ⟨a, b⟩ | ⟨a, b⟩ | ⟨a, b⟩ <;> simp_all [update, apply_ite]
  | sessionsEv ss =>
      rcases h with ⟨a, b⟩ | ⟨a, b⟩ | ⟨a, b⟩ | ⟨a, b⟩ <;> simp_all [update, apply_ite]
  | archivedEv runs =>
      rcases h with ⟨a, b⟩ | ⟨a, b⟩ | ⟨a, b⟩ | ⟨a, b⟩ <;> simp_all [update, apply_ite]
  | processesEv ps =>
      rcases h with ⟨a, b⟩ | ⟨a, b⟩ | ⟨a, b⟩ | ⟨a, b⟩ <;> simp_all [update, apply_ite]
  | logsEv content query messages logTab now =>
      rcases h with ⟨a, b⟩ | ⟨a, b⟩ | ⟨a, b⟩ | ⟨a, b⟩ <;> simp_all [update, apply_ite]
  | healthEv hh =>
      rcases h with ⟨a, b⟩ | ⟨a, b⟩ | ⟨a, b⟩ | ⟨a, b⟩ <;> simp_all [update, apply_ite]
  | agentReplyEv reply =>
      simp only [update] at h
      rcases h with ⟨a, b⟩ | ⟨a, b⟩ | ⟨a, b⟩ | ⟨a, b⟩ <;>
        (split_ifs at b <;> simp_all)
  | modelListEv models =>
      rcases h with ⟨a, b⟩ | ⟨a, b⟩ | ⟨a, b⟩ | ⟨a, b⟩ <;> simp_all [update, apply_ite]
  | spawnSuccessEv result =>
      cases result <;>
        (rcases h with ⟨a, b⟩ | ⟨a, b⟩ | ⟨a, b⟩ | ⟨a, b⟩ <;>
          simp_all [update, apply_ite])
  | errEv err =>
      rcases h with ⟨a, b⟩ | ⟨a, b⟩ | ⟨a, b⟩ | ⟨a, b⟩ <;> simp_all [update, apply_ite]
  | tickSessionsEv =>
      rcases h with ⟨a, b⟩ | ⟨a, b⟩ | ⟨a, b⟩ | ⟨a, b⟩ <;> simp_all [update, apply_ite]
  | tickProcessesEv =>
      rcases h with ⟨a, b⟩ | ⟨a, b⟩ | ⟨a, b⟩ | ⟨a, b⟩ <;> simp_all [update, apply_ite]
  | tickLogsEv now =>
      rcases h with ⟨a, b⟩ | ⟨a, b⟩ | ⟨a, b⟩ | ⟨a, b⟩ <;> simp_all [update, apply_ite]
  | tickHealthEv =>
      rcases h with ⟨a, b⟩ | ⟨a, b⟩ | ⟨a, b⟩ | ⟨a, b⟩ <;> simp_all [update, apply_ite]

/-- Claim C8: mode mutual exclusivity. In every state reachable from the
initial model by any sequence of events, at most one of the mode flags
searching, messaging, spawning, confirming is true; and whenever an update
raises a mode flag from false to true, the pre-state had all four flags
false (modes are entered only from the normal state). -/
theorem mode_mutual_exclusion :
    (∀ m : UIModel, Reachable m → modeCount m ≤ 1) ∧
    (∀ (m : UIModel) (e : Event),
      ((m.searching = false ∧ (update m e).1.searching = true) ∨
       (m.messaging = false ∧ (update m e).1.messaging = true) ∨
       (m.spawning = false ∧ (update m e).1.spawning = true) ∨
       (m.confirming = false ∧ (update m e).1.confirming = true)) →
      m.searching = false ∧ m.messaging = false ∧ m.spawning = false ∧
        m.confirming = false) := by
  constructor
  · intro m hr
    induction hr with
    | init => decide
    | step m' e hr ih => exact update_preserves_modeCount m' e ih
  · intro m e h
    exact update_mode_rise m e h

theorem mode_mutual_exclusion_witness :
    modeCount (update initModel (Event.key ("/".data))).1 ≤ 1 ∧
    (initModel.searching = false ∧ initModel.messaging = false ∧
     initModel.spawning = false ∧ initModel.confirming = false) :=
  ⟨mode_mutual_exclusion.1 (update initModel (Event.key ("/".data))).1
      (Reachable.step initModel (Event.key ("/".data)) Reachable.init),
   mode_mutual_exclusion.2 initModel (Event.key ("/".data))
      (Or.inl ⟨by decide, by decide⟩)⟩
